import Mathlib

/-!
Verification development for the functions-deploy Fabricator
(src/src/extensions/extensionsHelper.ts, second module: the class
`Fabricator` together with its helpers `applyPlan`, `applyChangeset`,
`createEndpoint`, `updateEndpoint`, `deleteEndpoint`, the platform
specific create/update/delete functions, `setConcurrency`, and the
trigger wiring functions).

The embedding is a shallow, sequential one.  Every network call the
Fabricator issues (through its two executors) is recorded in an explicit
trace of `Call` events, and the outcome of each named operation is
decided by an oracle `Env` (`Env.ok op endpoint`), mirroring how
`rethrowAs(endpoint, op)` tags each executor run.  Concurrent batches
(`utils.allSettled` over upserts / deletes / changesets) are
sequentialized in submission order; the properties proved below concern
the produced results and calls, which in the source do not depend on
completion order (each handle appends exactly one result, and the
abort branch inspects the fully settled list).

External collaborators that are not part of the source file
(`SourceTokenScraper`, `Timer`, the poller and the wire clients,
`backend` helpers and constants) are modelled from the spec as abstract
oracle fields or explicit state, each noted at its definition.
-/

namespace Fabricator

/-- Platform variant of an endpoint: exactly the two closed values
the source dispatches on ("gcfv1" / "gcfv2"). -/
inductive Platform
  | gcfv1
  | gcfv2
deriving DecidableEq, Repr

/-- Trigger variant of an endpoint, with the data the Fabricator reads
from it: the optional invoker lists of HTTPS and task-queue triggers and
the event type of a blocking trigger. -/
inductive Trigger
  | https (invoker : Option (List String))
  | callable
  | scheduled
  | event
  | taskQueue (invoker : Option (List String))
  | blocking (eventType : String)
deriving DecidableEq, Repr

/-- The fields of `backend.Endpoint` that the Fabricator reads. -/
structure Endpoint where
  project : String
  region : String
  id : String
  platform : Platform
  trigger : Trigger
  availableMemoryMb : Option Nat
  concurrency : Option Nat
deriving DecidableEq, Repr

/-- `planner.EndpointUpdate`: an endpoint plus an optional
delete-and-recreate target (the old version of the resource). -/
structure EndpointUpdate where
  endpoint : Endpoint
  deleteAndRecreate : Option Endpoint
deriving DecidableEq, Repr

/-- `planner.Changeset`. -/
structure Changeset where
  endpointsToCreate : List Endpoint
  endpointsToUpdate : List EndpointUpdate
  endpointsToDelete : List Endpoint
deriving DecidableEq, Repr

/-- The operation tags used by `rethrowAs(endpoint, op)`
(`reporter.OperationType` strings in the source). -/
inductive OperationType
  | create
  | update
  | delete
  | setInvoker
  | createTopic
  | setConcurrency
  | upsertSchedule
  | deleteSchedule
  | deleteTopic
  | upsertTaskQueue
  | disableTaskQueue
  | registerBlockingTrigger
  | unregisterBlockingTrigger
deriving DecidableEq, Repr

/-- The error values that flow through the Fabricator:
`reporter.DeploymentError {endpoint, opKind, cause}` (the cause is left
abstract), `reporter.AbortedDeploymentError`, and the plain
`Error("Precondition failed")` thrown when a source locator is missing. -/
inductive Err
  | deployment (endpoint : Endpoint) (op : OperationType)
  | aborted (endpoint : Endpoint)
  | precondition
deriving DecidableEq, Repr

/-- The slice of a GCFv1 `CloudFunction` descriptor that
`createV1Function` / `updateV1Function` manipulate before submission. -/
structure HttpsTriggerSpec where
  securityLevel : String
deriving DecidableEq, Repr

/-- Provider-native v1 function descriptor (result of
`gcf.functionFromEndpoint`), restricted to the fields the Fabricator
mutates: the optional HTTPS trigger and the source token. -/
structure V1Function where
  httpsTrigger : Option HttpsTriggerSpec
  sourceToken : Option String
deriving DecidableEq, Repr

/-- One network call issued through either executor.  Each constructor
names the wire-client function invoked in the source. -/
inductive Call
  | createFunctionV1 (e : Endpoint) (fn : V1Function)
  | updateFunctionV1 (e : Endpoint) (fn : V1Function)
  | createFunctionV2 (e : Endpoint)
  | updateFunctionV2 (e : Endpoint)
  | deleteFunctionV1 (e : Endpoint)
  | deleteFunctionV2 (e : Endpoint)
  | setInvokerCall (project : String) (target : String) (invoker : List String)
  | createTopicCall (topic : String)
  | getService (serviceName : String)
  | replaceService (serviceName : String) (containerConcurrency : Nat)
  | upsertScheduleJob (e : Endpoint)
  | deleteScheduleJob (e : Endpoint)
  | deleteTopicCall (e : Endpoint)
  | upsertQueue (e : Endpoint)
  | setEnqueuer (e : Endpoint) (invoker : List String)
  | updateQueueDisabled (e : Endpoint)
  | registerTriggerCall (e : Endpoint) (update : Bool)
  | unregisterTriggerCall (e : Endpoint)
deriving DecidableEq, Repr

/-- Construction-time configuration of a `Fabricator` (`FabricatorArgs`)
plus the constants it reads from collaborator modules.
`authBlockingEvents` models `AUTH_BLOCKING_EVENTS`, `defaultMemory`
models `backend.DEFAULT_MEMORY` and `minMemoryForConcurrency` models
`backend.MIN_MEMORY_FOR_CONCURRENCY`; those constants live outside the
source file and are kept abstract here. -/
structure Config where
  sourceUrl : Option String
  hasStorage : Bool
  authBlockingEvents : List String
  defaultMemory : Nat
  minMemoryForConcurrency : Nat

/-- Oracle for everything the environment decides during a run: whether
each named operation on each endpoint succeeds (`ok`, the outcome of the
corresponding `executor.run(..).catch(rethrowAs(endpoint, op))`), the
timer readings, the source token reported by an endpoint's build polls,
the provider-native descriptors built by `gcf.functionFromEndpoint` /
`gcfV2.functionFromEndpoint` (builders live outside the source file),
the service name returned by a v2 operation, and the live Cloud Run
service state read by `setConcurrency`. -/
structure Env where
  ok : OperationType → Endpoint → Bool
  duration : OperationType → Endpoint → Nat
  pollToken : Endpoint → Option String
  buildV1 : Endpoint → V1Function
  buildV2Topic : Endpoint → Option String
  serviceName : Endpoint → String
  getServiceOk : String → Bool
  liveConcurrency : String → Nat
  planTime : Nat

/-- JavaScript truthy-or on an optional number
(`x || d`: `undefined` and `0` both fall back to the default). -/
def jsOrNat (x : Option Nat) (d : Nat) : Nat :=
  match x with
  | none => d
  | some n => if n = 0 then d else n

/-- Modelled from the spec: the per-changeset `SourceTokenScraper`
(module `sourceTokenScraper`, not part of the source file) is a
first-writer-wins token cell; the first operation to report a token
resolves it and later operations read the same resolved value.  The
scraper state is the token resolved so far. -/
def feedToken (s tok : Option String) : Option String :=
  match s with
  | some t => some t
  | none => tok

/-- One executor run wrapped by `rethrowAs`: the listed calls are
issued, and the oracle decides whether the operation succeeds or fails
as a `DeploymentError {endpoint, opKind}`. -/
def execRun (env : Env) (op : OperationType) (e : Endpoint) (calls : List Call) :
    Except Err Unit × List Call :=
  (if env.ok op e then Except.ok () else Except.error (Err.deployment e op), calls)

/-- Sequencing of two effectful phases: the second runs only when the
first succeeded; issued calls accumulate. -/
def andCalls (a : Except Err Unit × List Call) (b : Except Err Unit × List Call) :
    Except Err Unit × List Call :=
  match a.1 with
  | Except.error err => (Except.error err, a.2)
  | Except.ok _ => (b.1, a.2 ++ b.2)

/-- Sequencing of two phases that also thread the scraper state. -/
def seqS (a : Except Err Unit × List Call × Option String)
    (b : Option String → Except Err Unit × List Call × Option String) :
    Except Err Unit × List Call × Option String :=
  match a with
  | (Except.error err, t, s) => (Except.error err, t, s)
  | (Except.ok _, t, s) =>
    let r := b s
    (r.1, t ++ r.2.1, r.2.2)

/-- Lift a phase without scraper interaction into the threaded form. -/
def liftS (s : Option String) (a : Except Err Unit × List Call) :
    Except Err Unit × List Call × Option String :=
  (a.1, a.2, s)

/-- Modelled from the spec: `backend.functionName(endpoint)` (module
`backend`, not part of the source file), the fully qualified GCF
function resource name used as the target of v1 invoker calls. -/
def functionName (e : Endpoint) : String :=
  "projects/" ++ e.project ++ "/locations/" ++ e.region ++ "/functions/" ++ e.id

/-- The trigger-kind dispatch shared verbatim by `createV1Function` and
`createV2Function` after the function resource exists: HTTPS invoker
defaults to `["public"]` and is set unless it includes `"private"`;
callable always set public; task-queue invoker set only when specified
and not private; blocking triggers set public when the event type is an
auth blocking event. -/
def invokerPhaseCreate (env : Env) (cfg : Config) (e : Endpoint) (target : String) :
    Except Err Unit × List Call :=
  match e.trigger with
  | Trigger.https invoker =>
    let inv := invoker.getD ["public"]
    if "private" ∈ inv then (Except.ok (), [])
    else execRun env OperationType.setInvoker e [Call.setInvokerCall e.project target inv]
  | Trigger.callable =>
    execRun env OperationType.setInvoker e [Call.setInvokerCall e.project target ["public"]]
  | Trigger.taskQueue invoker =>
    match invoker with
    | some inv =>
      if "private" ∈ inv then (Except.ok (), [])
      else execRun env OperationType.setInvoker e [Call.setInvokerCall e.project target inv]
    | none => (Except.ok (), [])
  | Trigger.blocking eventType =>
    if eventType ∈ cfg.authBlockingEvents then
      execRun env OperationType.setInvoker e [Call.setInvokerCall e.project target ["public"]]
    else (Except.ok (), [])
  | Trigger.scheduled => (Except.ok (), [])
  | Trigger.event => (Except.ok (), [])

/-- The invoker chosen by `updateV1Function` / `updateV2Function`
(no public default on update, no private filtering). -/
def invokerForUpdate (cfg : Config) (e : Endpoint) : Option (List String) :=
  match e.trigger with
  | Trigger.https invoker => invoker
  | Trigger.taskQueue invoker => invoker
  | Trigger.blocking eventType =>
    if eventType ∈ cfg.authBlockingEvents then some ["public"] else none
  | _ => none

/-- `Fabricator.setConcurrency`: fetch the live service, skip when its
container concurrency already equals the target, otherwise replace the
service spec with the new concurrency. -/
def setConcurrency (env : Env) (e : Endpoint) (serviceName : String) (concurrency : Nat) :
    Except Err Unit × List Call :=
  if env.getServiceOk serviceName then
    if env.liveConcurrency serviceName = concurrency then
      (Except.ok (), [Call.getService serviceName])
    else
      let r := execRun env OperationType.setConcurrency e
        [Call.replaceService serviceName concurrency]
      (r.1, Call.getService serviceName :: r.2)
  else (Except.error (Err.deployment e OperationType.setConcurrency), [Call.getService serviceName])

/-- `Fabricator.createV1Function`: requires `sourceUrl`; forces
`securityLevel = "SECURE_ALWAYS"` on an HTTPS trigger of the built
descriptor; attaches the scraper's current token; submits the create
and feeds the poll-reported token into the scraper; then runs the
create-time invoker dispatch. -/
def createV1Function (env : Env) (cfg : Config) (e : Endpoint) (s : Option String) :
    Except Err Unit × List Call × Option String :=
  match cfg.sourceUrl with
  | none => (Except.error Err.precondition, [], s)
  | some _ =>
    let apiFunction := env.buildV1 e
    let apiFunction :=
      match apiFunction.httpsTrigger with
      | some _ => { apiFunction with httpsTrigger := some { securityLevel := "SECURE_ALWAYS" } }
      | none => apiFunction
    let apiFunction := { apiFunction with sourceToken := s }
    let s' := feedToken s (env.pollToken e)
    let submit := execRun env OperationType.create e [Call.createFunctionV1 e apiFunction]
    match submit.1 with
    | Except.error err => (Except.error err, submit.2, s')
    | Except.ok _ =>
      let inv := invokerPhaseCreate env cfg e (functionName e)
      (inv.1, submit.2 ++ inv.2, s')

/-- `Fabricator.createV2Function`: requires `storage`; creates the
Pub/Sub topic when the built descriptor has one (an already-exists
conflict counts as success inside the oracle outcome); submits the
create; runs the create-time invoker dispatch against the resulting
service; finally sets concurrency when the (defaulted) memory reaches
the platform minimum and the caller did not request exactly 1. -/
def createV2Function (env : Env) (cfg : Config) (e : Endpoint) :
    Except Err Unit × List Call :=
  if cfg.hasStorage then
    let topicPhase :=
      match env.buildV2Topic e with
      | some topic => execRun env OperationType.createTopic e [Call.createTopicCall topic]
      | none => (Except.ok (), [])
    andCalls topicPhase
      (andCalls (execRun env OperationType.create e [Call.createFunctionV2 e])
        (andCalls (invokerPhaseCreate env cfg e (env.serviceName e))
          (if cfg.minMemoryForConcurrency ≤ jsOrNat e.availableMemoryMb cfg.defaultMemory
              ∧ e.concurrency ≠ some 1 then
            setConcurrency env e (env.serviceName e) (jsOrNat e.concurrency 80)
          else (Except.ok (), []))))
  else (Except.error Err.precondition, [])

/-- `Fabricator.updateV1Function`: requires `sourceUrl`; attaches the
scraper's current token; submits the update and feeds the poll-reported
token into the scraper; then sets the update-time invoker when one is
chosen. -/
def updateV1Function (env : Env) (cfg : Config) (e : Endpoint) (s : Option String) :
    Except Err Unit × List Call × Option String :=
  match cfg.sourceUrl with
  | none => (Except.error Err.precondition, [], s)
  | some _ =>
    let apiFunction := { env.buildV1 e with sourceToken := s }
    let s' := feedToken s (env.pollToken e)
    let submit := execRun env OperationType.update e [Call.updateFunctionV1 e apiFunction]
    match submit.1 with
    | Except.error err => (Except.error err, submit.2, s')
    | Except.ok _ =>
      let inv :=
        match invokerForUpdate cfg e with
        | some invoker =>
          execRun env OperationType.setInvoker e
            [Call.setInvokerCall e.project (functionName e) invoker]
        | none => (Except.ok (), [])
      (inv.1, submit.2 ++ inv.2, s')

/-- `Fabricator.updateV2Function`: requires `storage`; submits the
update; sets the update-time invoker when one is chosen; then calls
`setConcurrency` exactly when the endpoint specifies a truthy
concurrency. -/
def updateV2Function (env : Env) (cfg : Config) (e : Endpoint) :
    Except Err Unit × List Call :=
  if cfg.hasStorage then
    andCalls (execRun env OperationType.update e [Call.updateFunctionV2 e])
      (andCalls
        (match invokerForUpdate cfg e with
         | some invoker =>
           execRun env OperationType.setInvoker e
             [Call.setInvokerCall e.project (env.serviceName e) invoker]
         | none => (Except.ok (), []))
        (match e.concurrency with
         | some c => if c = 0 then (Except.ok (), []) else setConcurrency env e (env.serviceName e) c
         | none => (Except.ok (), [])))
  else (Except.error Err.precondition, [])

/-- `Fabricator.deleteV1Function`. -/
def deleteV1Function (env : Env) (e : Endpoint) : Except Err Unit × List Call :=
  execRun env OperationType.delete e [Call.deleteFunctionV1 e]

/-- `Fabricator.deleteV2Function`. -/
def deleteV2Function (env : Env) (e : Endpoint) : Except Err Unit × List Call :=
  execRun env OperationType.delete e [Call.deleteFunctionV2 e]

/-- `Fabricator.setTrigger`: schedule upsert (v1 only; v2 rejects with
a not-implemented `DeploymentError`), task-queue upsert with an
enqueuer binding only when an invoker was specified, and blocking
trigger registration.  The blocking branch here is the queue-free
projection: it gives the registration its own per-endpoint outcome and
drops the shared `this.triggerQueue` chain state.  The faithful
treatment of that chain — whose rejection, having no handler, skips
and rejects every later submitter plan-wide — is `setTriggerQ` /
`registerBlockingTriggerQ` below (and, for scheduling, the
`TriggerQueue` transition system); this projection coincides with the
faithful model whenever the chain is not rejected. -/
def setTrigger (env : Env) (e : Endpoint) (update : Bool) :
    Except Err Unit × List Call :=
  match e.trigger with
  | Trigger.scheduled =>
    match e.platform with
    | Platform.gcfv1 => execRun env OperationType.upsertSchedule e [Call.upsertScheduleJob e]
    | Platform.gcfv2 => (Except.error (Err.deployment e OperationType.upsertSchedule), [])
  | Trigger.taskQueue invoker =>
    andCalls (execRun env OperationType.upsertTaskQueue e [Call.upsertQueue e])
      (match invoker with
       | some inv => execRun env OperationType.setInvoker e [Call.setEnqueuer e inv]
       | none => (Except.ok (), []))
  | Trigger.blocking _ =>
    execRun env OperationType.registerBlockingTrigger e [Call.registerTriggerCall e update]
  | _ => (Except.ok (), [])

/-- `Fabricator.deleteTrigger`.  As in `setTrigger`, the blocking
branch is the queue-free projection of `unregisterBlockingTrigger`;
the shared-chain state is threaded faithfully by `deleteTriggerQ` /
`unregisterBlockingTriggerQ` below. -/
def deleteTrigger (env : Env) (e : Endpoint) : Except Err Unit × List Call :=
  match e.trigger with
  | Trigger.scheduled =>
    match e.platform with
    | Platform.gcfv1 =>
      andCalls (execRun env OperationType.deleteSchedule e [Call.deleteScheduleJob e])
        (execRun env OperationType.deleteTopic e [Call.deleteTopicCall e])
    | Platform.gcfv2 => (Except.error (Err.deployment e OperationType.deleteSchedule), [])
  | Trigger.taskQueue _ =>
    execRun env OperationType.disableTaskQueue e [Call.updateQueueDisabled e]
  | Trigger.blocking _ =>
    execRun env OperationType.unregisterBlockingTrigger e [Call.unregisterTriggerCall e]
  | _ => (Except.ok (), [])

/-- `Fabricator.deleteEndpoint`: tear down triggers first, then delete
the function resource of the endpoint's platform. -/
def deleteEndpoint (env : Env) (e : Endpoint) : Except Err Unit × List Call :=
  andCalls (deleteTrigger env e)
    (match e.platform with
     | Platform.gcfv1 => deleteV1Function env e
     | Platform.gcfv2 => deleteV2Function env e)

/-- `Fabricator.createEndpoint`: platform dispatch to the create, then
`setTrigger(endpoint, false)`.  (The deployment-tool label merge only
mutates `endpoint.labels`, which no proved property reads.) -/
def createEndpoint (env : Env) (cfg : Config) (e : Endpoint) (s : Option String) :
    Except Err Unit × List Call × Option String :=
  seqS
    (match e.platform with
     | Platform.gcfv1 => createV1Function env cfg e s
     | Platform.gcfv2 => liftS s (createV2Function env cfg e))
    (fun s' => liftS s' (setTrigger env e false))

/-- `Fabricator.updateEndpoint`: delete-and-recreate when requested,
otherwise platform dispatch to the update followed by
`setTrigger(endpoint, true)`. -/
def updateEndpoint (env : Env) (cfg : Config) (u : EndpointUpdate) (s : Option String) :
    Except Err Unit × List Call × Option String :=
  match u.deleteAndRecreate with
  | some old =>
    seqS (liftS s (deleteEndpoint env old)) (fun s' => createEndpoint env cfg u.endpoint s')
  | none =>
    seqS
      (match u.endpoint.platform with
       | Platform.gcfv1 => updateV1Function env cfg u.endpoint s
       | Platform.gcfv2 => liftS s (updateV2Function env cfg u.endpoint))
      (fun s' => liftS s' (setTrigger env u.endpoint true))

/-- `reporter.DeployResult`. -/
structure DeployResult where
  endpoint : Endpoint
  durationMs : Nat
  error : Option Err
deriving DecidableEq, Repr

/-- `reporter.Summary`. -/
structure Summary where
  totalTime : Nat
  results : List DeployResult
deriving DecidableEq, Repr

/-- The `handle(op, endpoint, fn)` adapter of `applyChangeset`: times
the operation and converts its outcome into exactly one `DeployResult`,
never letting a failure escape. -/
def handleOp (env : Env) (op : OperationType) (e : Endpoint) (r : Except Err Unit) :
    DeployResult :=
  { endpoint := e
    durationMs := env.duration op e
    error := match r with | Except.ok _ => none | Except.error err => some err }

/-- One queued upsert of a changeset: a create or an update. -/
inductive Upsert
  | create (e : Endpoint)
  | update (u : EndpointUpdate)
deriving DecidableEq, Repr

/-- The endpoint a queued upsert reports its result against. -/
def upsertEndpoint : Upsert → Endpoint
  | Upsert.create e => e
  | Upsert.update u => u.endpoint

/-- Run one queued upsert through `handle`, producing its
`DeployResult`, its issued calls, and the scraper state after it. -/
def runUpsert (env : Env) (cfg : Config) (u : Upsert) (s : Option String) :
    DeployResult × List Call × Option String :=
  match u with
  | Upsert.create e =>
    let r := createEndpoint env cfg e s
    (handleOp env OperationType.create e r.1, r.2.1, r.2.2)
  | Upsert.update up =>
    let r := updateEndpoint env cfg up s
    (handleOp env OperationType.update up.endpoint r.1, r.2.1, r.2.2)

/-- Run the queued upserts of a changeset in submission order,
threading the changeset's scraper state. -/
def runUpserts (env : Env) (cfg : Config) : List Upsert → Option String →
    List DeployResult × List Call × Option String
  | [], s => ([], [], s)
  | u :: rest, s =>
    let r := runUpsert env cfg u s
    let rs := runUpserts env cfg rest r.2.2
    (r.1 :: rs.1, r.2.1 ++ rs.2.1, rs.2.2)

/-- The submission order of a changeset's upserts: all creates, then
all updates, as in the two loops of `applyChangeset`. -/
def upsertsOf (C : Changeset) : List Upsert :=
  C.endpointsToCreate.map Upsert.create ++ C.endpointsToUpdate.map Upsert.update

/-- Run the deletes of a changeset through `handle`. -/
def runDeletes (env : Env) : List Endpoint → List DeployResult × List Call
  | [] => ([], [])
  | e :: rest =>
    let r := deleteEndpoint env e
    let rs := runDeletes env rest
    (handleOp env OperationType.delete e r.1 :: rs.1, r.2 ++ rs.2)

/-- `Fabricator.applyChangeset`: a fresh scraper, all upserts through
`handle`, wait-all; if any upsert result carries an error, synthesize an
`AbortedDeploymentError` result with duration 0 for every planned
delete and issue no further call; otherwise run all deletes through
`handle`. -/
def applyChangeset (env : Env) (cfg : Config) (C : Changeset) :
    List DeployResult × List Call :=
  let up := runUpserts env cfg (upsertsOf C) none
  if up.1.any (fun r => r.error.isSome) then
    (up.1 ++ C.endpointsToDelete.map (fun e =>
        { endpoint := e, durationMs := 0, error := some (Err.aborted e) }), up.2.1)
  else
    let del := runDeletes env C.endpointsToDelete
    (up.1 ++ del.1, up.2.1 ++ del.2)

/-- `Fabricator.applyPlan`: apply every changeset independently and
collect every result into one `Summary`.  The model is total: no
exception escapes, matching the source where each changeset's failures
are already recorded inside its results and any residual rejection is
logged and dropped. -/
def applyPlan (env : Env) (cfg : Config) (plan : List Changeset) :
    Summary × List Call :=
  let rs := plan.map (applyChangeset env cfg)
  ({ totalTime := env.planTime, results := (rs.map Prod.fst).flatten },
   (rs.map Prod.snd).flatten)

/-- The endpoints referenced by a changeset's creates, updates and
deletes — the ones owed a `DeployResult`. -/
def Changeset.referenced (C : Changeset) : List Endpoint :=
  C.endpointsToCreate ++ C.endpointsToUpdate.map (fun u => u.endpoint) ++ C.endpointsToDelete

/-- All endpoints referenced anywhere in a plan. -/
def planReferenced (plan : List Changeset) : List Endpoint :=
  (plan.map Changeset.referenced).flatten

/-- Concrete inputs used by the C1 witness: one changeset creating a
v1 HTTPS endpoint and deleting another. -/
def envC1 : Env :=
  { ok := fun _ _ => true
    duration := fun _ _ => 5
    pollToken := fun _ => none
    buildV1 := fun _ => { httpsTrigger := none, sourceToken := none }
    buildV2Topic := fun _ => none
    serviceName := fun e => e.id
    getServiceOk := fun _ => true
    liveConcurrency := fun _ => 0
    planTime := 7 }

def cfgC1 : Config :=
  { sourceUrl := some "gs://src"
    hasStorage := true
    authBlockingEvents := []
    defaultMemory := 256
    minMemoryForConcurrency := 2048 }

def epC1a : Endpoint :=
  { project := "p", region := "r", id := "fa", platform := Platform.gcfv1,
    trigger := Trigger.https none, availableMemoryMb := none, concurrency := none }

def epC1b : Endpoint :=
  { project := "p", region := "r", id := "fb", platform := Platform.gcfv1,
    trigger := Trigger.event, availableMemoryMb := none, concurrency := none }

def planC1 : List Changeset :=
  [{ endpointsToCreate := [epC1a], endpointsToUpdate := [], endpointsToDelete := [epC1b] }]

/-- Concrete inputs used by the C2 witness: the single create fails
(`ok create = false`), so the planned delete must be aborted. -/
def envC2 : Env :=
  { ok := fun op _ => match op with | OperationType.create => false | _ => true
    duration := fun _ _ => 3
    pollToken := fun _ => none
    buildV1 := fun _ => { httpsTrigger := none, sourceToken := none }
    buildV2Topic := fun _ => none
    serviceName := fun e => e.id
    getServiceOk := fun _ => true
    liveConcurrency := fun _ => 0
    planTime := 9 }

def cfgC2 : Config :=
  { sourceUrl := some "gs://src"
    hasStorage := true
    authBlockingEvents := []
    defaultMemory := 256
    minMemoryForConcurrency := 2048 }

def epC2a : Endpoint :=
  { project := "p", region := "r", id := "ca", platform := Platform.gcfv1,
    trigger := Trigger.https none, availableMemoryMb := none, concurrency := none }

def epC2b : Endpoint :=
  { project := "p", region := "r", id := "cb", platform := Platform.gcfv1,
    trigger := Trigger.event, availableMemoryMb := none, concurrency := none }

def csC2 : Changeset :=
  { endpointsToCreate := [epC2a], endpointsToUpdate := [], endpointsToDelete := [epC2b] }

/-- Concrete inputs used by the C10 witness: the builder yields a
descriptor with an HTTPS trigger whose security level starts out
unconstrained. -/
def envC10 : Env :=
  { ok := fun _ _ => true
    duration := fun _ _ => 1
    pollToken := fun _ => none
    buildV1 := fun _ => { httpsTrigger := some { securityLevel := "SECURE_OPTIONAL" },
                          sourceToken := none }
    buildV2Topic := fun _ => none
    serviceName := fun e => e.id
    getServiceOk := fun _ => true
    liveConcurrency := fun _ => 0
    planTime := 0 }

def cfgC10 : Config :=
  { sourceUrl := some "gs://src"
    hasStorage := true
    authBlockingEvents := []
    defaultMemory := 256
    minMemoryForConcurrency := 2048 }

def epC10 : Endpoint :=
  { project := "p", region := "r", id := "fh", platform := Platform.gcfv1,
    trigger := Trigger.https none, availableMemoryMb := none, concurrency := none }

/-- Concrete inputs used by the C8 witness: the live service already
runs at the target concurrency. -/
def envC8 : Env :=
  { ok := fun _ _ => true
    duration := fun _ _ => 1
    pollToken := fun _ => none
    buildV1 := fun _ => { httpsTrigger := none, sourceToken := none }
    buildV2Topic := fun _ => none
    serviceName := fun e => e.id
    getServiceOk := fun _ => true
    liveConcurrency := fun _ => 42
    planTime := 0 }

def epC8 : Endpoint :=
  { project := "p", region := "r", id := "svc", platform := Platform.gcfv2,
    trigger := Trigger.https none, availableMemoryMb := some 4096, concurrency := some 42 }

/-- The target of the inline create-time invoker call: the function
name on v1, the Cloud Run service name on v2. -/
def invokerTarget (env : Env) (e : Endpoint) : String :=
  match e.platform with
  | Platform.gcfv1 => functionName e
  | Platform.gcfv2 => env.serviceName e

/-- Concrete inputs used by the C6 witness: an HTTPS endpoint with no
invoker specified gets the public set-invoker call. -/
def envC6 : Env :=
  { ok := fun _ _ => true
    duration := fun _ _ => 1
    pollToken := fun _ => none
    buildV1 := fun _ => { httpsTrigger := some { securityLevel := "SECURE_ALWAYS" },
                          sourceToken := none }
    buildV2Topic := fun _ => none
    serviceName := fun e => e.id
    getServiceOk := fun _ => true
    liveConcurrency := fun _ => 0
    planTime := 0 }

def cfgC6 : Config :=
  { sourceUrl := some "gs://src"
    hasStorage := true
    authBlockingEvents := []
    defaultMemory := 256
    minMemoryForConcurrency := 2048 }

def epC6 : Endpoint :=
  { project := "p", region := "r", id := "fi", platform := Platform.gcfv1,
    trigger := Trigger.https none, availableMemoryMb := none, concurrency := none }

/-- Concrete inputs of the C7 counterexample: a v2 endpoint with ample
memory whose caller requested concurrency exactly 1, updated while the
live service runs at a different concurrency. -/
def envC7 : Env :=
  { ok := fun _ _ => true
    duration := fun _ _ => 1
    pollToken := fun _ => none
    buildV1 := fun _ => { httpsTrigger := none, sourceToken := none }
    buildV2Topic := fun _ => none
    serviceName := fun _ => "svc"
    getServiceOk := fun _ => true
    liveConcurrency := fun _ => 80
    planTime := 0 }

def cfgC7 : Config :=
  { sourceUrl := some "gs://src"
    hasStorage := true
    authBlockingEvents := []
    defaultMemory := 256
    minMemoryForConcurrency := 2048 }

def epC7 : Endpoint :=
  { project := "p", region := "r", id := "f7", platform := Platform.gcfv2,
    trigger := Trigger.https none, availableMemoryMb := some 4096, concurrency := some 1 }

/-- Concrete inputs used by the C7 witness: on the create path an
endpoint with ample memory and no explicit concurrency gets the
concurrency phase. -/
def epC7w : Endpoint :=
  { project := "p", region := "r", id := "f7w", platform := Platform.gcfv2,
    trigger := Trigger.https none, availableMemoryMb := some 4096, concurrency := none }

/-- A call carries the source token `t` on any v1 create/update
submission it happens to be. -/
def V1TokenIs (t : String) (x : Call) : Prop :=
  (∀ e fn, x = Call.createFunctionV1 e fn → fn.sourceToken = some t) ∧
  (∀ e fn, x = Call.updateFunctionV1 e fn → fn.sourceToken = some t)

/-- Concrete inputs used by the C9 witness: the first create's polls
report token `tok`, so the scraper is resolved after the prefix. -/
def envC9 : Env :=
  { ok := fun _ _ => true
    duration := fun _ _ => 1
    pollToken := fun _ => some "tok"
    buildV1 := fun _ => { httpsTrigger := none, sourceToken := none }
    buildV2Topic := fun _ => none
    serviceName := fun e => e.id
    getServiceOk := fun _ => true
    liveConcurrency := fun _ => 0
    planTime := 0 }

def cfgC9 : Config :=
  { sourceUrl := some "gs://src"
    hasStorage := true
    authBlockingEvents := []
    defaultMemory := 256
    minMemoryForConcurrency := 2048 }

def epC9a : Endpoint :=
  { project := "p", region := "r", id := "g1", platform := Platform.gcfv1,
    trigger := Trigger.event, availableMemoryMb := none, concurrency := none }

def epC9b : Endpoint :=
  { project := "p", region := "r", id := "g2", platform := Platform.gcfv1,
    trigger := Trigger.event, availableMemoryMb := none, concurrency := none }

/-- Classification of the errors a per-endpoint operation can produce:
a `DeploymentError` on some endpoint and operation, or the precondition
failure — the latter only when the corresponding source locator is
missing from the configuration. -/
def DeployErrOn (cfg : Config) (err : Err) : Prop :=
  (∃ e op, err = Err.deployment e op) ∨
  (err = Err.precondition ∧ (cfg.sourceUrl = none ∨ cfg.hasStorage = false))

/-- Concrete inputs of the C5 counterexample: a v1 create with no
`sourceUrl` configured. -/
def envC5 : Env :=
  { ok := fun _ _ => true
    duration := fun _ _ => 3
    pollToken := fun _ => none
    buildV1 := fun _ => { httpsTrigger := none, sourceToken := none }
    buildV2Topic := fun _ => none
    serviceName := fun e => e.id
    getServiceOk := fun _ => true
    liveConcurrency := fun _ => 0
    planTime := 0 }

def cfgC5 : Config :=
  { sourceUrl := none
    hasStorage := true
    authBlockingEvents := []
    defaultMemory := 256
    minMemoryForConcurrency := 2048 }

def epC5 : Endpoint :=
  { project := "p", region := "r", id := "f5", platform := Platform.gcfv1,
    trigger := Trigger.event, availableMemoryMb := none, concurrency := none }

def planC5 : List Changeset :=
  [{ endpointsToCreate := [epC5], endpointsToUpdate := [], endpointsToDelete := [] }]

/-- Two oracles agree on an endpoint when they decide every named
operation, timer reading, poll token, built descriptor, service name
and live service state for that endpoint identically — i.e. they may
differ only on other endpoints' outcomes. -/
structure AgreesOnEndpoint (env₁ env₂ : Env) (e : Endpoint) : Prop where
  ok : ∀ op, env₁.ok op e = env₂.ok op e
  duration : ∀ op, env₁.duration op e = env₂.duration op e
  pollToken : env₁.pollToken e = env₂.pollToken e
  buildV1 : env₁.buildV1 e = env₂.buildV1 e
  buildV2Topic : env₁.buildV2Topic e = env₂.buildV2Topic e
  serviceName : env₁.serviceName e = env₂.serviceName e
  getServiceOk : env₁.getServiceOk (env₁.serviceName e) = env₂.getServiceOk (env₂.serviceName e)
  liveConcurrency : env₁.liveConcurrency (env₁.serviceName e)
      = env₂.liveConcurrency (env₂.serviceName e)

/-- All endpoints a changeset touches: creates, update targets,
delete-and-recreate old versions, and deletes. -/
def Changeset.allEndpoints (C : Changeset) : List Endpoint :=
  C.endpointsToCreate ++ C.endpointsToUpdate.map (fun u => u.endpoint)
    ++ C.endpointsToUpdate.filterMap (fun u => u.deleteAndRecreate) ++ C.endpointsToDelete

/-- Two oracles agree on a changeset when they agree on every endpoint
it touches. -/
def AgreesOn (env₁ env₂ : Env) (C : Changeset) : Prop :=
  ∀ e ∈ C.allEndpoints, AgreesOnEndpoint env₁ env₂ e

/-- Agreement needed to run one queued upsert identically. -/
def UpsertAgrees (env₁ env₂ : Env) : Upsert → Prop
  | Upsert.create e => AgreesOnEndpoint env₁ env₂ e
  | Upsert.update u => AgreesOnEndpoint env₁ env₂ u.endpoint ∧
      ∀ old, u.deleteAndRecreate = some old → AgreesOnEndpoint env₁ env₂ old

/-- Concrete inputs used by the C4 witness: changeset A's endpoint
fails under the second oracle and succeeds under the first, while both
oracles agree on changeset B's endpoint. -/
def envC4a : Env :=
  { ok := fun _ _ => true
    duration := fun _ _ => 2
    pollToken := fun _ => none
    buildV1 := fun _ => { httpsTrigger := none, sourceToken := none }
    buildV2Topic := fun _ => none
    serviceName := fun _ => "svc"
    getServiceOk := fun _ => true
    liveConcurrency := fun _ => 0
    planTime := 0 }

def envC4b : Env :=
  { envC4a with ok := fun _ e => if e.id = "a" then false else true }

def cfgC4 : Config :=
  { sourceUrl := some "gs://src"
    hasStorage := true
    authBlockingEvents := []
    defaultMemory := 256
    minMemoryForConcurrency := 2048 }

def epC4a : Endpoint :=
  { project := "p", region := "r", id := "a", platform := Platform.gcfv1,
    trigger := Trigger.event, availableMemoryMb := none, concurrency := none }

def epC4b : Endpoint :=
  { project := "p", region := "r", id := "b", platform := Platform.gcfv1,
    trigger := Trigger.event, availableMemoryMb := none, concurrency := none }

def csC4A : Changeset :=
  { endpointsToCreate := [epC4a], endpointsToUpdate := [], endpointsToDelete := [] }

def csC4B : Changeset :=
  { endpointsToCreate := [epC4b], endpointsToUpdate := [], endpointsToDelete := [] }

/-!
The refined interpreter below threads the one piece of Fabricator-wide
state the earlier definitions project away: `this.triggerQueue`
(constructed at line 690 and reassigned at lines 1175 and 1213).
`registerBlockingTrigger` / `unregisterBlockingTrigger` chain every
blocking-trigger call onto this single promise with no rejection
handler, so once one call fails, every later submitter — in any
changeset of any later plan — receives the rejected chain: its own
callback is skipped (no backend call issued) and its returned promise
rejects with the earlier endpoint's `DeploymentError`.  The threaded
state `Option Err` is the chain's settlement as observed sequentially:
`none` while the chain has only fulfilled links, `some err` once it is
rejected.  The sequential threading fixes one admissible submission
interleaving (plan order, then submission order inside a changeset).
-/

/-- `Fabricator.registerBlockingTrigger` (lines 1171–1181) with the
shared chain: if `this.triggerQueue` is already rejected, the
`.then` callback is skipped — no executor call is issued — and the
returned promise rejects with the same reason; otherwise the call is
issued, and a failure both surfaces to this submitter and rejects the
chain for every later one. -/
def registerBlockingTriggerQ (env : Env) (e : Endpoint) (update : Bool) (tq : Option Err) :
    Except Err Unit × List Call × Option Err :=
  match tq with
  | some err => (Except.error err, [], some err)
  | none =>
    if env.ok OperationType.registerBlockingTrigger e then
      (Except.ok (), [Call.registerTriggerCall e update], none)
    else
      (Except.error (Err.deployment e OperationType.registerBlockingTrigger),
       [Call.registerTriggerCall e update],
       some (Err.deployment e OperationType.registerBlockingTrigger))

/-- `Fabricator.unregisterBlockingTrigger` (lines 1210–1219) with the
shared chain, symmetric to `registerBlockingTriggerQ`. -/
def unregisterBlockingTriggerQ (env : Env) (e : Endpoint) (tq : Option Err) :
    Except Err Unit × List Call × Option Err :=
  match tq with
  | some err => (Except.error err, [], some err)
  | none =>
    if env.ok OperationType.unregisterBlockingTrigger e then
      (Except.ok (), [Call.unregisterTriggerCall e], none)
    else
      (Except.error (Err.deployment e OperationType.unregisterBlockingTrigger),
       [Call.unregisterTriggerCall e],
       some (Err.deployment e OperationType.unregisterBlockingTrigger))

/-- `Fabricator.setTrigger` with the shared chain threaded: only the
blocking branch touches it; every other trigger kind behaves exactly
as in `setTrigger` and passes the chain state through. -/
def setTriggerQ (env : Env) (e : Endpoint) (update : Bool) (tq : Option Err) :
    Except Err Unit × List Call × Option Err :=
  match e.trigger with
  | Trigger.blocking _ => registerBlockingTriggerQ env e update tq
  | _ =>
    let r := setTrigger env e update
    (r.1, r.2, tq)

/-- `Fabricator.deleteTrigger` with the shared chain threaded. -/
def deleteTriggerQ (env : Env) (e : Endpoint) (tq : Option Err) :
    Except Err Unit × List Call × Option Err :=
  match e.trigger with
  | Trigger.blocking _ => unregisterBlockingTriggerQ env e tq
  | _ =>
    let r := deleteTrigger env e
    (r.1, r.2, tq)

/-- `Fabricator.deleteEndpoint` with the shared chain threaded. -/
def deleteEndpointQ (env : Env) (e : Endpoint) (tq : Option Err) :
    Except Err Unit × List Call × Option Err :=
  let a := deleteTriggerQ env e tq
  match a.1 with
  | Except.error err => (Except.error err, a.2.1, a.2.2)
  | Except.ok _ =>
    let r := match e.platform with
      | Platform.gcfv1 => deleteV1Function env e
      | Platform.gcfv2 => deleteV2Function env e
    (r.1, a.2.1 ++ r.2, a.2.2)

/-- `Fabricator.createEndpoint` with the shared chain threaded:
platform create (touching only the scraper), then `setTriggerQ`. -/
def createEndpointQ (env : Env) (cfg : Config) (e : Endpoint) (s : Option String)
    (tq : Option Err) : Except Err Unit × List Call × Option String × Option Err :=
  let a :=
    match e.platform with
    | Platform.gcfv1 => createV1Function env cfg e s
    | Platform.gcfv2 => liftS s (createV2Function env cfg e)
  match a with
  | (Except.error err, t, s') => (Except.error err, t, s', tq)
  | (Except.ok _, t, s') =>
    let r := setTriggerQ env e false tq
    (r.1, t ++ r.2.1, s', r.2.2)

/-- `Fabricator.updateEndpoint` with the shared chain threaded. -/
def updateEndpointQ (env : Env) (cfg : Config) (u : EndpointUpdate) (s : Option String)
    (tq : Option Err) : Except Err Unit × List Call × Option String × Option Err :=
  match u.deleteAndRecreate with
  | some old =>
    let d := deleteEndpointQ env old tq
    match d.1 with
    | Except.error err => (Except.error err, d.2.1, s, d.2.2)
    | Except.ok _ =>
      let c := createEndpointQ env cfg u.endpoint s d.2.2
      (c.1, d.2.1 ++ c.2.1, c.2.2.1, c.2.2.2)
  | none =>
    let a :=
      match u.endpoint.platform with
      | Platform.gcfv1 => updateV1Function env cfg u.endpoint s
      | Platform.gcfv2 => liftS s (updateV2Function env cfg u.endpoint)
    match a with
    | (Except.error err, t, s') => (Except.error err, t, s', tq)
    | (Except.ok _, t, s') =>
      let r := setTriggerQ env u.endpoint true tq
      (r.1, t ++ r.2.1, s', r.2.2)

/-- One queued upsert through `handle`, with the shared chain
threaded. -/
def runUpsertQ (env : Env) (cfg : Config) (u : Upsert) (s : Option String) (tq : Option Err) :
    DeployResult × List Call × Option String × Option Err :=
  match u with
  | Upsert.create e =>
    let r := createEndpointQ env cfg e s tq
    (handleOp env OperationType.create e r.1, r.2.1, r.2.2.1, r.2.2.2)
  | Upsert.update up =>
    let r := updateEndpointQ env cfg up s tq
    (handleOp env OperationType.update up.endpoint r.1, r.2.1, r.2.2.1, r.2.2.2)

/-- The queued upserts of a changeset in submission order, with the
shared chain threaded. -/
def runUpsertsQ (env : Env) (cfg : Config) : List Upsert → Option String → Option Err →
    List DeployResult × List Call × Option String × Option Err
  | [], s, tq => ([], [], s, tq)
  | u :: rest, s, tq =>
    let r := runUpsertQ env cfg u s tq
    let rs := runUpsertsQ env cfg rest r.2.2.1 r.2.2.2
    (r.1 :: rs.1, r.2.1 ++ rs.2.1, rs.2.2.1, rs.2.2.2)

/-- The deletes of a changeset through `handle`, with the shared chain
threaded. -/
def runDeletesQ (env : Env) : List Endpoint → Option Err →
    List DeployResult × List Call × Option Err
  | [], tq => ([], [], tq)
  | e :: rest, tq =>
    let r := deleteEndpointQ env e tq
    let rs := runDeletesQ env rest r.2.2
    (handleOp env OperationType.delete e r.1 :: rs.1, r.2.1 ++ rs.2.1, rs.2.2)

/-- `Fabricator.applyChangeset` with the shared chain threaded: the
scraper is fresh per changeset, the chain state is not. -/
def applyChangesetQ (env : Env) (cfg : Config) (C : Changeset) (tq : Option Err) :
    List DeployResult × List Call × Option Err :=
  let up := runUpsertsQ env cfg (upsertsOf C) none tq
  if up.1.any (fun r => r.error.isSome) then
    (up.1 ++ C.endpointsToDelete.map (fun e =>
        { endpoint := e, durationMs := 0, error := some (Err.aborted e) }), up.2.1, up.2.2.2)
  else
    let del := runDeletesQ env C.endpointsToDelete up.2.2.2
    (up.1 ++ del.1, up.2.1 ++ del.2.1, del.2.2)

/-- All changesets of a plan, with the shared chain threaded across
them (the interference channel the queue-free model projects away). -/
def applyChangesetsQ (env : Env) (cfg : Config) : List Changeset → Option Err →
    List DeployResult × List Call × Option Err
  | [], tq => ([], [], tq)
  | C :: rest, tq =>
    let r := applyChangesetQ env cfg C tq
    let rs := applyChangesetsQ env cfg rest r.2.2
    (r.1 ++ rs.1, r.2.1 ++ rs.2.1, rs.2.2)

/-- `Fabricator.applyPlan` over the refined interpreter; the chain
starts unrejected (`Promise.resolve()` at construction, line 690). -/
def applyPlanQ (env : Env) (cfg : Config) (plan : List Changeset) : Summary × List Call :=
  let r := applyChangesetsQ env cfg plan none
  ({ totalTime := env.planTime, results := r.1 }, r.2.1)

/-- An endpoint whose trigger is not a blocking trigger — the only
kind that touches the shared chain. -/
def NonBlocking (e : Endpoint) : Prop := ∀ evt, e.trigger ≠ Trigger.blocking evt

/-- Concrete inputs of the C4 counterexample: changesets A and B each
create one blocking-triggered v1 endpoint; under the failing oracle
only A's blocking-trigger registration fails. -/
def epC4qa : Endpoint :=
  { project := "p", region := "r", id := "a", platform := Platform.gcfv1,
    trigger := Trigger.blocking "evt", availableMemoryMb := none, concurrency := none }

def epC4qb : Endpoint :=
  { project := "p", region := "r", id := "b", platform := Platform.gcfv1,
    trigger := Trigger.blocking "evt", availableMemoryMb := none, concurrency := none }

def csC4QA : Changeset :=
  { endpointsToCreate := [epC4qa], endpointsToUpdate := [], endpointsToDelete := [] }

def csC4QB : Changeset :=
  { endpointsToCreate := [epC4qb], endpointsToUpdate := [], endpointsToDelete := [] }

def envC4qok : Env :=
  { ok := fun _ _ => true
    duration := fun _ _ => 0
    pollToken := fun _ => none
    buildV1 := fun _ => { httpsTrigger := none, sourceToken := none }
    buildV2Topic := fun _ => none
    serviceName := fun _ => "svc"
    getServiceOk := fun _ => true
    liveConcurrency := fun _ => 0
    planTime := 0 }

def envC4qfail : Env :=
  { envC4qok with ok := fun op e =>
      match op with
      | OperationType.registerBlockingTrigger => if e.id = "a" then false else true
      | _ => true }

namespace TriggerQueue

/-- Modelled from the spec: status of the i-th blocking-trigger
(un)registration call submitted to one Fabricator's trigger queue
(`registerBlockingTrigger` / `unregisterBlockingTrigger` chain their
executor runs with `this.triggerQueue = this.triggerQueue.then(...)`);
a call can run and then complete successfully or with a failure. -/
inductive CallStatus
  | notStarted
  | running
  | doneOk
  | doneErr
deriving DecidableEq, Repr

/-- Modelled from the spec: status of the i-th chain promise (the
value of `this.triggerQueue` right after the i-th submission), with the
JavaScript promise outcomes: pending, fulfilled, rejected. -/
inductive ChainStatus
  | pending
  | fulfilled
  | rejected
deriving DecidableEq, Repr

/-- Modelled from the spec: the observable state of the trigger queue —
per-submission call and chain-promise statuses plus an unconstrained
component standing for all other asynchronous work in flight. -/
structure QState where
  call : Nat → CallStatus
  chain : Nat → ChainStatus
  other : Nat

/-- The promise the i-th submission's callback is chained onto: the
initial `Promise.resolve()` for the first submission, otherwise the
previous chain promise. -/
def prevFulfilled (s : QState) (i : Nat) : Prop :=
  match i with
  | 0 => True
  | j + 1 => s.chain j = ChainStatus.fulfilled

/-- Modelled from the spec: one scheduler step of the JavaScript
runtime, restricted to the trigger queue's observables.  A submission's
callback may start only once the promise it was chained onto is
fulfilled (`.then` semantics); a running call may complete either way;
a chain promise settles like the callback outcome it wraps; a rejected
chain promise propagates to the next chain promise, whose callback is
skipped and never starts; and unrelated asynchronous work (`tick`) may
interleave at any time. -/
inductive Step : QState → QState → Prop
  | start (q : QState) (i : Nat) :
      prevFulfilled q i → q.call i = CallStatus.notStarted →
      Step q { q with call := fun j => if j = i then CallStatus.running else q.call j }
  | finishOk (q : QState) (i : Nat) :
      q.call i = CallStatus.running →
      Step q { q with call := fun j => if j = i then CallStatus.doneOk else q.call j }
  | finishErr (q : QState) (i : Nat) :
      q.call i = CallStatus.running →
      Step q { q with call := fun j => if j = i then CallStatus.doneErr else q.call j }
  | fulfill (q : QState) (i : Nat) :
      q.call i = CallStatus.doneOk → q.chain i = ChainStatus.pending →
      Step q { q with chain := fun j => if j = i then ChainStatus.fulfilled else q.chain j }
  | rejectOwn (q : QState) (i : Nat) :
      q.call i = CallStatus.doneErr → q.chain i = ChainStatus.pending →
      Step q { q with chain := fun j => if j = i then ChainStatus.rejected else q.chain j }
  | rejectProp (q : QState) (i : Nat) :
      q.chain i = ChainStatus.rejected → q.chain (i + 1) = ChainStatus.pending →
      q.call (i + 1) = CallStatus.notStarted →
      Step q { q with chain := fun j => if j = i + 1 then ChainStatus.rejected else q.chain j }
  | tick (q : QState) (n : Nat) :
      Step q { q with other := n }

/-- The queue before any submission's callback has run: the chain base
`Promise.resolve()` is implicit in `prevFulfilled`. -/
def init : QState :=
  { call := fun _ => CallStatus.notStarted
    chain := fun _ => ChainStatus.pending
    other := 0 }

/-- States the trigger queue can actually be in. -/
def Reachable (s : QState) : Prop := Relation.ReflTransGen Step init s

/-- The inductive invariant: fulfilled chain promises wrap completed
successful calls; rejected ones wrap own failures or skipped callbacks;
a started call means every earlier call completed successfully; and a
rejection is always rooted in an own failure or a rejected
predecessor. -/
def Inv (s : QState) : Prop :=
  (∀ i, s.chain i = ChainStatus.fulfilled → s.call i = CallStatus.doneOk) ∧
  (∀ i, s.chain i = ChainStatus.rejected →
      s.call i = CallStatus.doneErr ∨ s.call i = CallStatus.notStarted) ∧
  (∀ i, s.call i ≠ CallStatus.notStarted → ∀ j, j < i → s.call j = CallStatus.doneOk) ∧
  (s.chain 0 = ChainStatus.rejected → s.call 0 = CallStatus.doneErr) ∧
  (∀ i, s.chain (i + 1) = ChainStatus.rejected →
      s.call (i + 1) = CallStatus.doneErr ∨ s.chain i = ChainStatus.rejected)

end TriggerQueue

theorem runUpserts_map_endpoint (env : Env) (cfg : Config) (l : List Upsert) (s : Option String) :
    (runUpserts env cfg l s).1.map DeployResult.endpoint = l.map upsertEndpoint := by
  induction l generalizing s with
  | nil => rfl
  | cons u rest ih =>
    cases u <;> simp [runUpserts, runUpsert, handleOp, upsertEndpoint, ih]

theorem runDeletes_map_endpoint (env : Env) (l : List Endpoint) :
    (runDeletes env l).1.map DeployResult.endpoint = l := by
  induction l with
  | nil => rfl
  | cons e rest ih => simp [runDeletes, handleOp, ih]

theorem upsertsOf_map (C : Changeset) :
    (upsertsOf C).map upsertEndpoint
      = C.endpointsToCreate ++ C.endpointsToUpdate.map (fun u => u.endpoint) := by
  simp [upsertsOf, List.map_map, Function.comp_def, upsertEndpoint]

theorem applyChangeset_map_endpoint (env : Env) (cfg : Config) (C : Changeset) :
    (applyChangeset env cfg C).1.map DeployResult.endpoint = C.referenced := by
  cases h : (runUpserts env cfg (upsertsOf C) none).1.any (fun r => r.error.isSome) with
  | true =>
    simp [applyChangeset, h, Changeset.referenced, runUpserts_map_endpoint, upsertsOf_map,
      List.map_map, Function.comp_def, List.append_assoc]
  | false =>
    simp [applyChangeset, h, Changeset.referenced, runUpserts_map_endpoint,
      runDeletes_map_endpoint, upsertsOf_map, List.append_assoc]

theorem applyPlan_map_endpoint (env : Env) (cfg : Config) (plan : List Changeset) :
    (applyPlan env cfg plan).1.results.map DeployResult.endpoint = planReferenced plan := by
  induction plan with
  | nil => rfl
  | cons C rest ih =>
    simp only [applyPlan, planReferenced, List.map_cons, List.flatten_cons,
      List.map_append] at ih ⊢
    rw [applyChangeset_map_endpoint, ih]

theorem filter_endpoint_eq_nil (l : List DeployResult) (e : Endpoint)
    (h : e ∉ l.map DeployResult.endpoint) :
    l.filter (fun r => r.endpoint = e) = [] := by
  induction l with
  | nil => rfl
  | cons r rest ih =>
    simp only [List.map_cons, List.mem_cons, not_or] at h
    have hne : ¬(r.endpoint = e) := fun hc => h.1 hc.symm
    simp [List.filter_cons, hne, ih h.2]

theorem filter_endpoint_length_one (l : List DeployResult) (e : Endpoint)
    (hn : (l.map DeployResult.endpoint).Nodup) (he : e ∈ l.map DeployResult.endpoint) :
    (l.filter (fun r => r.endpoint = e)).length = 1 := by
  induction l with
  | nil => simp at he
  | cons r rest ih =>
    simp only [List.map_cons, List.nodup_cons] at hn
    rcases List.mem_cons.mp he with h1 | h2
    · have hnil : rest.filter (fun x => x.endpoint = e) = [] :=
        filter_endpoint_eq_nil rest e (h1 ▸ hn.1)
      simp [List.filter_cons, h1.symm, hnil]
    · have hne : ¬(r.endpoint = e) := fun hc => hn.1 (hc ▸ h2)
      simp [List.filter_cons, hne, ih hn.2 h2]

/-- C1: for every deployment plan, `applyPlan` is a total function
into `Summary` (it never raises, every per-endpoint failure having been
recorded by `handle`), the endpoints of its result list are exactly the
endpoints referenced by any changeset's creates, updates or deletes (so
no endpoint outcome is dropped even when sibling operations fail), and
under the plan invariant that endpoint identities are unique, every
referenced endpoint gets exactly one `DeployResult`. -/
theorem applyPlan_one_result_per_endpoint (env : Env) (cfg : Config) (plan : List Changeset) :
    ((applyPlan env cfg plan).1.results.map DeployResult.endpoint = planReferenced plan) ∧
    ((planReferenced plan).Nodup →
      ∀ e ∈ planReferenced plan,
        ((applyPlan env cfg plan).1.results.filter (fun r => r.endpoint = e)).length = 1) := by
  refine ⟨applyPlan_map_endpoint env cfg plan, fun hnodup e he => ?_⟩
  exact filter_endpoint_length_one _ e
    ((applyPlan_map_endpoint env cfg plan).symm ▸ hnodup)
    ((applyPlan_map_endpoint env cfg plan).symm ▸ he)

theorem applyPlan_one_result_per_endpoint_witness :
    (planReferenced planC1).Nodup ∧ epC1a ∈ planReferenced planC1 ∧
    ((applyPlan envC1 cfgC1 planC1).1.results.filter (fun r => r.endpoint = epC1a)).length = 1 :=
  ⟨by decide, by decide,
    (applyPlan_one_result_per_endpoint envC1 cfgC1 planC1).2 (by decide) epC1a (by decide)⟩

/-- C2: within one changeset, if at least one create or update result
carries an error, then the changeset's outcome is exactly the upsert
results followed by one synthetic `AbortedDeploymentError` result with
`durationMs = 0` per planned delete, and the issued calls are exactly
the upsert phase's calls (so no delete call of any kind is issued for
the skipped deletes); if no upsert failed, the delete phase appends one
handled result per planned delete (every delete is attempted through
`handle`) and its calls. -/
theorem changeset_abort_rule (env : Env) (cfg : Config) (C : Changeset) :
    (((runUpserts env cfg (upsertsOf C) none).1.any fun r => r.error.isSome) = true →
      applyChangeset env cfg C
        = ((runUpserts env cfg (upsertsOf C) none).1
            ++ C.endpointsToDelete.map (fun e =>
                { endpoint := e, durationMs := 0, error := some (Err.aborted e) }),
           (runUpserts env cfg (upsertsOf C) none).2.1)) ∧
    (((runUpserts env cfg (upsertsOf C) none).1.any fun r => r.error.isSome) = false →
      applyChangeset env cfg C
        = ((runUpserts env cfg (upsertsOf C) none).1 ++ (runDeletes env C.endpointsToDelete).1,
           (runUpserts env cfg (upsertsOf C) none).2.1 ++ (runDeletes env C.endpointsToDelete).2)
      ∧ (runDeletes env C.endpointsToDelete).1.map DeployResult.endpoint
          = C.endpointsToDelete) := by
  constructor
  · intro h
    simp [applyChangeset, h]
  · intro h
    exact ⟨by simp [applyChangeset, h], runDeletes_map_endpoint env C.endpointsToDelete⟩

theorem changeset_abort_rule_witness :
    ((runUpserts envC2 cfgC2 (upsertsOf csC2) none).1.any fun r => r.error.isSome) = true ∧
    applyChangeset envC2 cfgC2 csC2
      = ((runUpserts envC2 cfgC2 (upsertsOf csC2) none).1
          ++ csC2.endpointsToDelete.map (fun e =>
              { endpoint := e, durationMs := 0, error := some (Err.aborted e) }),
         (runUpserts envC2 cfgC2 (upsertsOf csC2) none).2.1) :=
  ⟨by decide, (changeset_abort_rule envC2 cfgC2 csC2).1 (by decide)⟩

theorem mem_andCalls {x : Call} {a b : Except Err Unit × List Call}
    (h : x ∈ (andCalls a b).2) : x ∈ a.2 ∨ x ∈ b.2 := by
  rcases a with ⟨r, t⟩
  cases r with
  | error err => exact Or.inl h
  | ok _ =>
    simp only [andCalls, List.mem_append] at h
    exact h

theorem mem_seqS {x : Call} {a : Except Err Unit × List Call × Option String}
    {b : Option String → Except Err Unit × List Call × Option String}
    (h : x ∈ (seqS a b).2.1) : x ∈ a.2.1 ∨ x ∈ (b a.2.2).2.1 := by
  rcases a with ⟨r, t, s⟩
  cases r with
  | error err => exact Or.inl h
  | ok _ =>
    simp only [seqS, List.mem_append] at h
    exact h

/-- Every call issued by the create-time invoker dispatch is a
set-invoker call. -/
theorem invokerPhaseCreate_calls (env : Env) (cfg : Config) (e : Endpoint) (target : String) :
    ∀ x ∈ (invokerPhaseCreate env cfg e target).2, ∃ p t l, x = Call.setInvokerCall p t l := by
  intro x hx
  unfold invokerPhaseCreate at hx
  rcases htr : e.trigger with inv | _ | _ | _ | inv | evt <;> simp only [htr] at hx
  · by_cases hp : "private" ∈ inv.getD ["public"]
    · simp [hp] at hx
    · simp only [hp, if_false, execRun, List.mem_singleton] at hx
      exact ⟨_, _, _, by simpa using hx⟩
  · simp only [execRun, List.mem_singleton] at hx
    exact ⟨_, _, _, by simpa using hx⟩
  · simp at hx
  · simp at hx
  · rcases inv with _ | inv
    · simp at hx
    · by_cases hp : "private" ∈ inv
      · simp [hp] at hx
      · simp only [hp, if_false, execRun, List.mem_singleton] at hx
        exact ⟨_, _, _, by simpa using hx⟩
  · by_cases hb : evt ∈ cfg.authBlockingEvents
    · simp only [hb, if_true, execRun, List.mem_singleton] at hx
      exact ⟨_, _, _, by simpa using hx⟩
    · simp [hb] at hx

/-- Every call issued by `setConcurrency` is the service fetch or the
service replace with the target concurrency. -/
theorem setConcurrency_calls (env : Env) (e : Endpoint) (name : String) (c : Nat) :
    ∀ x ∈ (setConcurrency env e name c).2,
      x = Call.getService name ∨ x = Call.replaceService name c := by
  intro x hx
  cases hg : env.getServiceOk name <;> simp only [setConcurrency, hg] at hx
  · simp at hx
    exact Or.inl hx
  · by_cases hl : env.liveConcurrency name = c
    · simp [hl] at hx
      exact Or.inl hx
    · simp [hl, execRun] at hx
      tauto

/-- Every call issued by `setTrigger` is a schedule upsert, a queue
upsert, an enqueuer binding, or a blocking-trigger registration. -/
theorem setTrigger_calls (env : Env) (e : Endpoint) (u : Bool) :
    ∀ x ∈ (setTrigger env e u).2,
      (∃ e', x = Call.upsertScheduleJob e') ∨ (∃ e', x = Call.upsertQueue e') ∨
      (∃ e' l, x = Call.setEnqueuer e' l) ∨ (∃ e' b, x = Call.registerTriggerCall e' b) := by
  intro x hx
  unfold setTrigger at hx
  rcases htr : e.trigger with _ | _ | _ | _ | inv | _ <;> simp only [htr] at hx
  · simp at hx
  · simp at hx
  · rcases hp : e.platform <;> simp only [hp] at hx
    · simp [execRun] at hx
      exact Or.inl ⟨_, hx⟩
    · simp at hx
  · simp at hx
  · rcases mem_andCalls hx with h | h
    · simp [execRun] at h
      exact Or.inr (Or.inl ⟨_, h⟩)
    · rcases inv with _ | inv
      · simp at h
      · simp [execRun] at h
        exact Or.inr (Or.inr (Or.inl ⟨_, _, h⟩))
  · simp [execRun] at hx
    exact Or.inr (Or.inr (Or.inr ⟨_, _, hx⟩))

/-- Every call issued by `deleteTrigger` is a schedule-job delete, a
topic delete, a queue disable, or a blocking-trigger unregistration. -/
theorem deleteTrigger_calls (env : Env) (e : Endpoint) :
    ∀ x ∈ (deleteTrigger env e).2,
      (∃ e', x = Call.deleteScheduleJob e') ∨ (∃ e', x = Call.deleteTopicCall e') ∨
      (∃ e', x = Call.updateQueueDisabled e') ∨ (∃ e', x = Call.unregisterTriggerCall e') := by
  intro x hx
  unfold deleteTrigger at hx
  rcases htr : e.trigger with _ | _ | _ | _ | inv | _ <;> simp only [htr] at hx
  · simp at hx
  · simp at hx
  · rcases hp : e.platform <;> simp only [hp] at hx
    · rcases mem_andCalls hx with h | h
      · simp [execRun] at h
        exact Or.inl ⟨_, h⟩
      · simp [execRun] at h
        exact Or.inr (Or.inl ⟨_, h⟩)
    · simp at hx
  · simp at hx
  · simp [execRun] at hx
    exact Or.inr (Or.inr (Or.inl ⟨_, hx⟩))
  · simp [execRun] at hx
    exact Or.inr (Or.inr (Or.inr ⟨_, hx⟩))

/-- Every call issued by `deleteEndpoint` is a trigger teardown call or
a platform function delete. -/
theorem deleteEndpoint_calls (env : Env) (e : Endpoint) :
    ∀ x ∈ (deleteEndpoint env e).2,
      (∃ e', x = Call.deleteScheduleJob e') ∨ (∃ e', x = Call.deleteTopicCall e') ∨
      (∃ e', x = Call.updateQueueDisabled e') ∨ (∃ e', x = Call.unregisterTriggerCall e') ∨
      (∃ e', x = Call.deleteFunctionV1 e') ∨ (∃ e', x = Call.deleteFunctionV2 e') := by
  intro x hx
  rcases mem_andCalls hx with h | h
  · rcases deleteTrigger_calls env e x h with h' | h' | h' | h' <;> tauto
  · rcases hp : e.platform <;> simp only [hp] at h <;>
      simp [deleteV1Function, deleteV2Function, execRun] at h <;> tauto

/-- Every call issued by `createV1Function` is the v1 create submission
of a descriptor whose HTTPS trigger, when present, already has
`securityLevel = "SECURE_ALWAYS"`, or a set-invoker call. -/
theorem createV1Function_calls (env : Env) (cfg : Config) (e : Endpoint) (s : Option String) :
    ∀ x ∈ (createV1Function env cfg e s).2.1,
      (∃ fn, x = Call.createFunctionV1 e fn ∧
        (fn.httpsTrigger = none ∨ fn.httpsTrigger = some { securityLevel := "SECURE_ALWAYS" })) ∨
      (∃ p t l, x = Call.setInvokerCall p t l) := by
  intro x hx
  unfold createV1Function at hx
  cases hu : cfg.sourceUrl <;> simp only [hu] at hx
  · simp at hx
  · cases hok : env.ok OperationType.create e <;>
      simp only [execRun, hok, if_false, if_true, List.mem_append, List.mem_singleton] at hx
    · refine Or.inl ⟨_, by simpa using hx, ?_⟩
      cases hb : (env.buildV1 e).httpsTrigger <;> simp [hb]
    · rcases hx with hx | hx
      · refine Or.inl ⟨_, by simpa using hx, ?_⟩
        cases hb : (env.buildV1 e).httpsTrigger <;> simp [hb]
      · exact Or.inr (invokerPhaseCreate_calls env cfg e (functionName e) x hx)

/-- Every call issued by `createV2Function` is a topic create, the v2
create submission, a set-invoker call, or a concurrency fetch/replace. -/
theorem createV2Function_calls (env : Env) (cfg : Config) (e : Endpoint) :
    ∀ x ∈ (createV2Function env cfg e).2,
      (∃ t, x = Call.createTopicCall t) ∨ (∃ e', x = Call.createFunctionV2 e') ∨
      (∃ p t l, x = Call.setInvokerCall p t l) ∨
      (∃ n, x = Call.getService n) ∨ (∃ n c, x = Call.replaceService n c) := by
  intro x hx
  unfold createV2Function at hx
  cases hs : cfg.hasStorage <;> simp only [hs, if_false, if_true, Bool.false_eq_true] at hx
  · simp at hx
  · rcases mem_andCalls hx with h | h
    · cases ht : env.buildV2Topic e <;> simp only [ht] at h
      · simp at h
      · simp [execRun] at h
        exact Or.inl ⟨_, h⟩
    · rcases mem_andCalls h with h | h
      · simp [execRun] at h
        exact Or.inr (Or.inl ⟨_, h⟩)
      · rcases mem_andCalls h with h | h
        · exact Or.inr (Or.inr (Or.inl (invokerPhaseCreate_calls env cfg e _ x h)))
        · by_cases hc : cfg.minMemoryForConcurrency ≤ jsOrNat e.availableMemoryMb cfg.defaultMemory
              ∧ e.concurrency ≠ some 1
          · rw [if_pos hc] at h
            rcases setConcurrency_calls env e _ _ x h with h' | h'
            · exact Or.inr (Or.inr (Or.inr (Or.inl ⟨_, h'⟩)))
            · exact Or.inr (Or.inr (Or.inr (Or.inr ⟨_, _, h'⟩)))
          · rw [if_neg hc] at h
            simp at h

/-- C10 (implicit): every v1 create submitted by `createEndpoint`
carries a descriptor whose HTTPS trigger, when present, has
`securityLevel = "SECURE_ALWAYS"` — every newly created v1 HTTPS
function requires HTTPS. -/
theorem v1_create_secure_always (env : Env) (cfg : Config) (e : Endpoint) (s : Option String) :
    ∀ e' fn, Call.createFunctionV1 e' fn ∈ (createEndpoint env cfg e s).2.1 →
      ∀ ht, fn.httpsTrigger = some ht → ht.securityLevel = "SECURE_ALWAYS" := by
  intro e' fn hmem ht hht
  unfold createEndpoint at hmem
  rcases mem_seqS hmem with h | h
  · rcases hp : e.platform <;> simp only [hp] at h
    · rcases createV1Function_calls env cfg e s _ h with ⟨fn', hEq, hsec⟩ | ⟨p, t, l, hEq⟩
      · have hfn : fn = fn' := by
          injection hEq with h1 h2
        subst hfn
        rcases hsec with h0 | h0
        · rw [h0] at hht
          exact absurd hht (by simp)
        · rw [h0] at hht
          injection hht with h1
          rw [← h1]
      · exact absurd hEq (by simp)
    · rcases createV2Function_calls env cfg e _ h with ⟨t, hEq⟩ | ⟨a, hEq⟩ | ⟨p, t, l, hEq⟩ |
        ⟨n, hEq⟩ | ⟨n, c, hEq⟩ <;> exact absurd hEq (by simp)
  · rcases setTrigger_calls env e false _ h with ⟨a, hEq⟩ | ⟨a, hEq⟩ | ⟨a, l, hEq⟩ |
      ⟨a, b, hEq⟩ <;> exact absurd hEq (by simp)

theorem v1_create_secure_always_witness :
    Call.createFunctionV1 epC10
        { httpsTrigger := some { securityLevel := "SECURE_ALWAYS" }, sourceToken := none }
      ∈ (createEndpoint envC10 cfgC10 epC10 none).2.1 ∧
    ({ securityLevel := "SECURE_ALWAYS" } : HttpsTriggerSpec).securityLevel = "SECURE_ALWAYS" :=
  ⟨by decide,
   v1_create_secure_always envC10 cfgC10 epC10 none epC10
     { httpsTrigger := some { securityLevel := "SECURE_ALWAYS" }, sourceToken := none }
     (by decide) { securityLevel := "SECURE_ALWAYS" } rfl⟩

/-- C8: `setConcurrency` issues no service-replace call when the
fetched live service's container concurrency already equals the target
(the only issued call is the fetch), and any replace call it issues
targets exactly the requested service and concurrency and happens only
when the live value differs. -/
theorem setConcurrency_skip_when_matching (env : Env) (e : Endpoint) (name : String) (c : Nat) :
    (env.liveConcurrency name = c →
      (setConcurrency env e name c).2 = [Call.getService name]) ∧
    (∀ n c', Call.replaceService n c' ∈ (setConcurrency env e name c).2 →
      n = name ∧ c' = c ∧ env.liveConcurrency name ≠ c) := by
  constructor
  · intro h
    cases hg : env.getServiceOk name <;> simp [setConcurrency, hg, h, execRun]
  · intro n c' hm
    cases hg : env.getServiceOk name <;> simp only [setConcurrency, hg] at hm
    · simp at hm
    · by_cases hl : env.liveConcurrency name = c
      · simp [hl] at hm
      · simp [hl, execRun] at hm
        exact ⟨hm.1, hm.2, hl⟩

theorem setConcurrency_skip_when_matching_witness :
    envC8.liveConcurrency "svc" = 42 ∧
    (setConcurrency envC8 epC8 "svc" 42).2 = [Call.getService "svc"] :=
  ⟨rfl, (setConcurrency_skip_when_matching envC8 epC8 "svc" 42).1 rfl⟩

theorem seqS_mem_left {x : Call} (a : Except Err Unit × List Call × Option String)
    (b : Option String → Except Err Unit × List Call × Option String)
    (h : x ∈ a.2.1) : x ∈ (seqS a b).2.1 := by
  rcases a with ⟨r, t, s⟩
  cases r <;> simp [seqS] at h ⊢ <;> tauto

theorem andCalls_mem_left {x : Call} (a b : Except Err Unit × List Call)
    (h : x ∈ a.2) : x ∈ (andCalls a b).2 := by
  rcases a with ⟨r, t⟩
  cases r <;> simp [andCalls] at h ⊢ <;> tauto

theorem andCalls_mem_right {x : Call} (a b : Except Err Unit × List Call)
    (ha : a.1 = Except.ok ()) (h : x ∈ b.2) : x ∈ (andCalls a b).2 := by
  rcases a with ⟨r, t⟩
  cases r with
  | error err => exact absurd ha (by simp)
  | ok _ => simp [andCalls]; tauto

theorem invokerPhase_https (env : Env) (cfg : Config) (e : Endpoint) (target : String)
    (inv : Option (List String)) (h : e.trigger = Trigger.https inv) :
    (invokerPhaseCreate env cfg e target).2
      = if "private" ∈ inv.getD ["public"] then []
        else [Call.setInvokerCall e.project target (inv.getD ["public"])] := by
  unfold invokerPhaseCreate
  rw [h]
  by_cases hp : "private" ∈ inv.getD ["public"] <;> simp [hp, execRun]

theorem invokerPhase_callable (env : Env) (cfg : Config) (e : Endpoint) (target : String)
    (h : e.trigger = Trigger.callable) :
    (invokerPhaseCreate env cfg e target).2
      = [Call.setInvokerCall e.project target ["public"]] := by
  unfold invokerPhaseCreate
  rw [h]
  simp [execRun]

theorem invokerPhase_blocking (env : Env) (cfg : Config) (e : Endpoint) (target : String)
    (evt : String) (h : e.trigger = Trigger.blocking evt) (hb : evt ∈ cfg.authBlockingEvents) :
    (invokerPhaseCreate env cfg e target).2
      = [Call.setInvokerCall e.project target ["public"]] := by
  unfold invokerPhaseCreate
  rw [h]
  simp [hb, execRun]

theorem invokerPhase_taskQueue_none (env : Env) (cfg : Config) (e : Endpoint) (target : String)
    (h : e.trigger = Trigger.taskQueue none) :
    (invokerPhaseCreate env cfg e target).2 = [] := by
  unfold invokerPhaseCreate
  rw [h]

theorem setTrigger_https (env : Env) (e : Endpoint) (u : Bool)
    (inv : Option (List String)) (h : e.trigger = Trigger.https inv) :
    setTrigger env e u = (Except.ok (), []) := by
  unfold setTrigger
  rw [h]

theorem setTrigger_callable (env : Env) (e : Endpoint) (u : Bool)
    (h : e.trigger = Trigger.callable) :
    setTrigger env e u = (Except.ok (), []) := by
  unfold setTrigger
  rw [h]

theorem setTrigger_taskQueue_none (env : Env) (e : Endpoint) (u : Bool)
    (h : e.trigger = Trigger.taskQueue none) :
    (setTrigger env e u).2 = [Call.upsertQueue e] := by
  unfold setTrigger
  rw [h]
  cases hok : env.ok OperationType.upsertTaskQueue e <;> simp [andCalls, execRun, hok]

/-- Every call of `createV1Function` is its v1 create submission or a
call of its invoker phase. -/
theorem mem_createV1Function (env : Env) (cfg : Config) (e : Endpoint) (s : Option String) :
    ∀ x ∈ (createV1Function env cfg e s).2.1,
      (∃ fn, x = Call.createFunctionV1 e fn) ∨
      x ∈ (invokerPhaseCreate env cfg e (functionName e)).2 := by
  intro x hx
  unfold createV1Function at hx
  cases hu : cfg.sourceUrl <;> simp only [hu] at hx
  · simp at hx
  · cases hok : env.ok OperationType.create e <;>
      simp only [execRun, hok, if_false, if_true, List.mem_append, List.mem_singleton] at hx
    · exact Or.inl ⟨_, by simpa using hx⟩
    · rcases hx with hx | hx
      · exact Or.inl ⟨_, by simpa using hx⟩
      · exact Or.inr hx

/-- Every call of `createV2Function` is a topic create, its v2 create
submission, a call of its invoker phase, or a call of its concurrency
phase — the latter only under the memory/concurrency guard. -/
theorem mem_createV2Function (env : Env) (cfg : Config) (e : Endpoint) :
    ∀ x ∈ (createV2Function env cfg e).2,
      (∃ t, x = Call.createTopicCall t) ∨ x = Call.createFunctionV2 e ∨
      x ∈ (invokerPhaseCreate env cfg e (env.serviceName e)).2 ∨
      ((cfg.minMemoryForConcurrency ≤ jsOrNat e.availableMemoryMb cfg.defaultMemory
          ∧ e.concurrency ≠ some 1) ∧
        x ∈ (setConcurrency env e (env.serviceName e) (jsOrNat e.concurrency 80)).2) := by
  intro x hx
  unfold createV2Function at hx
  cases hs : cfg.hasStorage <;> simp only [hs, if_false, if_true, Bool.false_eq_true] at hx
  · simp at hx
  · rcases mem_andCalls hx with h | h
    · cases ht : env.buildV2Topic e <;> simp only [ht] at h
      · simp at h
      · simp [execRun] at h
        exact Or.inl ⟨_, h⟩
    · rcases mem_andCalls h with h | h
      · simp [execRun] at h
        exact Or.inr (Or.inl h)
      · rcases mem_andCalls h with h | h
        · exact Or.inr (Or.inr (Or.inl h))
        · by_cases hc : cfg.minMemoryForConcurrency ≤ jsOrNat e.availableMemoryMb cfg.defaultMemory
              ∧ e.concurrency ≠ some 1
          · rw [if_pos hc] at h
            exact Or.inr (Or.inr (Or.inr ⟨hc, h⟩))
          · rw [if_neg hc] at h
            simp at h

/-- When the create path reaches the invoker dispatch (locators
present, topic create and function create succeed), every call of the
invoker phase appears among `createV2Function`'s calls. -/
theorem createV2_mem_invoker (env : Env) (cfg : Config) (e : Endpoint)
    (h2 : cfg.hasStorage = true) (h3 : env.ok OperationType.create e = true)
    (h4 : env.ok OperationType.createTopic e = true)
    {x : Call} (hx : x ∈ (invokerPhaseCreate env cfg e (env.serviceName e)).2) :
    x ∈ (createV2Function env cfg e).2 := by
  unfold createV2Function
  rw [h2]
  simp only [if_true]
  apply andCalls_mem_right
  · cases ht : env.buildV2Topic e <;> simp [execRun, h4]
  · apply andCalls_mem_right
    · simp [execRun, h3]
    · exact andCalls_mem_left _ _ hx

/-- When the create path reaches the invoker dispatch, every call of
the invoker phase appears among `createEndpoint`'s calls. -/
theorem createEndpoint_mem_invoker (env : Env) (cfg : Config) (e : Endpoint) (s : Option String)
    (h1 : cfg.sourceUrl.isSome = true) (h2 : cfg.hasStorage = true)
    (h3 : env.ok OperationType.create e = true) (h4 : env.ok OperationType.createTopic e = true)
    {x : Call} (hx : x ∈ (invokerPhaseCreate env cfg e (invokerTarget env e)).2) :
    x ∈ (createEndpoint env cfg e s).2.1 := by
  unfold createEndpoint
  apply seqS_mem_left
  rcases hp : e.platform <;> simp only [hp] <;> simp only [invokerTarget, hp] at hx
  · rcases Option.isSome_iff_exists.mp h1 with ⟨url, hu⟩
    unfold createV1Function
    rw [hu]
    simp [execRun, h3]
    exact Or.inr hx
  · exact createV2_mem_invoker env cfg e h2 h3 h4 hx

/-- Every call of `createEndpoint` is a v1 create submission, an
invoker-phase call, a topic create, the v2 create submission, a
concurrency-phase call, or a `setTrigger` call. -/
theorem mem_createEndpoint (env : Env) (cfg : Config) (e : Endpoint) (s : Option String) :
    ∀ x ∈ (createEndpoint env cfg e s).2.1,
      (∃ fn, x = Call.createFunctionV1 e fn) ∨
      x ∈ (invokerPhaseCreate env cfg e (invokerTarget env e)).2 ∨
      (∃ t, x = Call.createTopicCall t) ∨ x = Call.createFunctionV2 e ∨
      x ∈ (setConcurrency env e (env.serviceName e) (jsOrNat e.concurrency 80)).2 ∨
      x ∈ (setTrigger env e false).2 := by
  intro x hx
  unfold createEndpoint at hx
  rcases mem_seqS hx with h | h
  · rcases hp : e.platform <;> simp only [hp] at h
    · rcases mem_createV1Function env cfg e s x h with h' | h'
      · exact Or.inl h'
      · refine Or.inr (Or.inl ?_)
        simpa [invokerTarget, hp] using h'
    · rcases mem_createV2Function env cfg e x (by simpa [liftS] using h) with h' | h' | h' | h'
      · exact Or.inr (Or.inr (Or.inl h'))
      · exact Or.inr (Or.inr (Or.inr (Or.inl h')))
      · refine Or.inr (Or.inl ?_)
        simpa [invokerTarget, hp] using h'
      · exact Or.inr (Or.inr (Or.inr (Or.inr (Or.inl h'.2))))
  · exact Or.inr (Or.inr (Or.inr (Or.inr (Or.inr (by simpa [liftS] using h)))))

/-- C6: invoker policy by trigger kind on create, on both platform
paths (with the create phase reaching the invoker dispatch): an HTTPS
endpoint's invoker defaults to `["public"]` and the set-invoker call is
issued if and only if the list does not include `"private"`; callable
and auth-blocking-event endpoints always get a public set-invoker call;
a task-queue endpoint with no specified invoker triggers no set-invoker
and no set-enqueuer call at all. -/
theorem invoker_policy_on_create (env : Env) (cfg : Config) (e : Endpoint) (s : Option String)
    (h1 : cfg.sourceUrl.isSome = true) (h2 : cfg.hasStorage = true)
    (h3 : env.ok OperationType.create e = true)
    (h4 : env.ok OperationType.createTopic e = true) :
    (∀ inv, e.trigger = Trigger.https inv →
      ((Call.setInvokerCall e.project (invokerTarget env e) (inv.getD ["public"])
          ∈ (createEndpoint env cfg e s).2.1) ↔ "private" ∉ inv.getD ["public"])) ∧
    (e.trigger = Trigger.callable →
      Call.setInvokerCall e.project (invokerTarget env e) ["public"]
        ∈ (createEndpoint env cfg e s).2.1) ∧
    (∀ evt, e.trigger = Trigger.blocking evt → evt ∈ cfg.authBlockingEvents →
      Call.setInvokerCall e.project (invokerTarget env e) ["public"]
        ∈ (createEndpoint env cfg e s).2.1) ∧
    (e.trigger = Trigger.taskQueue none →
      (∀ p t l, Call.setInvokerCall p t l ∉ (createEndpoint env cfg e s).2.1) ∧
      (∀ e' l, Call.setEnqueuer e' l ∉ (createEndpoint env cfg e s).2.1)) := by
  refine ⟨?_, ?_, ?_, ?_⟩
  · intro inv htr
    constructor
    · intro hm hp
      rcases mem_createEndpoint env cfg e s _ hm with ⟨fn, hEq⟩ | h | ⟨t, hEq⟩ | hEq | h | h
      · exact absurd hEq (by simp)
      · rw [invokerPhase_https env cfg e _ inv htr, if_pos hp] at h
        simp at h
      · exact absurd hEq (by simp)
      · exact absurd hEq (by simp)
      · rcases setConcurrency_calls _ _ _ _ _ h with h' | h' <;> exact absurd h' (by simp)
      · rw [setTrigger_https env e false inv htr] at h
        simp at h
    · intro hp
      apply createEndpoint_mem_invoker env cfg e s h1 h2 h3 h4
      rw [invokerPhase_https env cfg e _ inv htr, if_neg hp]
      simp
  · intro htr
    apply createEndpoint_mem_invoker env cfg e s h1 h2 h3 h4
    rw [invokerPhase_callable env cfg e _ htr]
    simp
  · intro evt htr hb
    apply createEndpoint_mem_invoker env cfg e s h1 h2 h3 h4
    rw [invokerPhase_blocking env cfg e _ evt htr hb]
    simp
  · intro htr
    constructor
    · intro p t l hm
      rcases mem_createEndpoint env cfg e s _ hm with ⟨fn, hEq⟩ | h | ⟨tt, hEq⟩ | hEq | h | h
      · exact absurd hEq (by simp)
      · rw [invokerPhase_taskQueue_none env cfg e _ htr] at h
        simp at h
      · exact absurd hEq (by simp)
      · exact absurd hEq (by simp)
      · rcases setConcurrency_calls _ _ _ _ _ h with h' | h' <;> exact absurd h' (by simp)
      · rw [setTrigger_taskQueue_none env e false htr] at h
        simp at h
    · intro e' l hm
      rcases mem_createEndpoint env cfg e s _ hm with ⟨fn, hEq⟩ | h | ⟨tt, hEq⟩ | hEq | h | h
      · exact absurd hEq (by simp)
      · rw [invokerPhase_taskQueue_none env cfg e _ htr] at h
        simp at h
      · exact absurd hEq (by simp)
      · exact absurd hEq (by simp)
      · rcases setConcurrency_calls _ _ _ _ _ h with h' | h' <;> exact absurd h' (by simp)
      · rw [setTrigger_taskQueue_none env e false htr] at h
        simp at h

theorem invoker_policy_on_create_witness :
    cfgC6.sourceUrl.isSome = true ∧
    Call.setInvokerCall "p" (invokerTarget envC6 epC6)
        ((none : Option (List String)).getD ["public"])
      ∈ (createEndpoint envC6 cfgC6 epC6 none).2.1 :=
  ⟨rfl,
    ((invoker_policy_on_create envC6 cfgC6 epC6 none rfl rfl rfl rfl).1 none rfl).mpr
      (by decide)⟩

/-- The concurrency phase always begins by fetching the live service. -/
theorem getService_mem_setConcurrency (env : Env) (e : Endpoint) (name : String) (c : Nat) :
    Call.getService name ∈ (setConcurrency env e name c).2 := by
  cases hg : env.getServiceOk name <;> simp only [setConcurrency, hg]
  · simp
  · by_cases hl : env.liveConcurrency name = c <;> simp [hl, execRun]

/-- Any replace call issued by `setConcurrency` targets exactly the
requested service and concurrency, and only when the live value
differs. -/
theorem setConcurrency_replace_facts (env : Env) (e : Endpoint) (name : String) (c : Nat)
    {n : String} {c' : Nat} (hm : Call.replaceService n c' ∈ (setConcurrency env e name c).2) :
    n = name ∧ c' = c ∧ env.liveConcurrency name ≠ c := by
  cases hg : env.getServiceOk name <;> simp only [setConcurrency, hg] at hm
  · simp at hm
  · by_cases hl : env.liveConcurrency name = c
    · simp [hl] at hm
    · simp [hl, execRun] at hm
      exact ⟨hm.1, hm.2, hl⟩

/-- The create-time invoker dispatch succeeds whenever the set-invoker
operation does (it either issues that one call or none). -/
theorem invokerPhase_ok (env : Env) (cfg : Config) (e : Endpoint) (target : String)
    (h5 : env.ok OperationType.setInvoker e = true) :
    (invokerPhaseCreate env cfg e target).1 = Except.ok () := by
  unfold invokerPhaseCreate
  rcases htr : e.trigger with inv | _ | _ | _ | inv | evt <;> simp only [htr]
  · by_cases hp : "private" ∈ inv.getD ["public"] <;> simp [hp, execRun, h5]
  · simp [execRun, h5]
  · rcases inv with _ | inv
    · rfl
    · by_cases hp : "private" ∈ inv <;> simp [hp, execRun, h5]
  · by_cases hb : evt ∈ cfg.authBlockingEvents <;> simp [hb, execRun, h5]

/-- The update-time invoker step of `updateV2Function` succeeds
whenever the set-invoker operation does. -/
theorem invokerUpdatePart_ok (env : Env) (cfg : Config) (e : Endpoint)
    (h5 : env.ok OperationType.setInvoker e = true) :
    (match invokerForUpdate cfg e with
     | some invoker =>
       execRun env OperationType.setInvoker e
         [Call.setInvokerCall e.project (env.serviceName e) invoker]
     | none => (Except.ok (), [])).1 = Except.ok () := by
  cases hi : invokerForUpdate cfg e <;> simp [execRun, h5]

/-- Every call of `updateV2Function` is its v2 update submission, a
set-invoker call, or a concurrency-phase call — the latter only when
the endpoint specifies a nonzero concurrency, with that value as the
target. -/
theorem mem_updateV2Function (env : Env) (cfg : Config) (e : Endpoint) :
    ∀ x ∈ (updateV2Function env cfg e).2,
      x = Call.updateFunctionV2 e ∨
      (∃ p t l, x = Call.setInvokerCall p t l) ∨
      (∃ c, e.concurrency = some c ∧ c ≠ 0 ∧
        x ∈ (setConcurrency env e (env.serviceName e) c).2) := by
  intro x hx
  unfold updateV2Function at hx
  cases hs : cfg.hasStorage <;> simp only [hs, if_false, if_true, Bool.false_eq_true] at hx
  · simp at hx
  · rcases mem_andCalls hx with h | h
    · simp [execRun] at h
      exact Or.inl h
    · rcases mem_andCalls h with h | h
      · cases hi : invokerForUpdate cfg e <;> simp only [hi] at h
        · simp at h
        · simp [execRun] at h
          exact Or.inr (Or.inl ⟨_, _, _, h⟩)
      · cases hc : e.concurrency with
        | none => simp only [hc] at h; simp at h
        | some c =>
          simp only [hc] at h
          by_cases hz : c = 0
          · rw [if_pos hz] at h
            simp at h
          · rw [if_neg hz] at h
            exact Or.inr (Or.inr ⟨c, rfl, hz, h⟩)

/-- C7 counterexample: on the v2 update path the code calls
`setConcurrency` (issuing a service replace targeting concurrency 1)
even though the caller explicitly requested concurrency exactly 1 and
the claim says concurrency must then not be set. -/
theorem concurrency_policy_counterexample :
    epC7.concurrency = some 1 ∧
    Call.replaceService "svc" 1 ∈ (updateV2Function envC7 cfgC7 epC7).2 := by
  constructor
  · rfl
  · decide

/-- C7 amended: on the v2 create path, the concurrency phase runs if
and only if the (defaulted) available memory reaches the platform
minimum and the caller did not request concurrency exactly 1, with
target the requested value or 80 by default; on the v2 update path
however, the concurrency phase runs if and only if the endpoint
specifies a (nonzero) concurrency — regardless of memory and including
an explicit request of exactly 1 — with the requested value as target. -/
theorem concurrency_policy (env : Env) (cfg : Config) (e : Endpoint)
    (h2 : cfg.hasStorage = true)
    (h3 : env.ok OperationType.create e = true)
    (h4 : env.ok OperationType.createTopic e = true)
    (h5 : env.ok OperationType.setInvoker e = true)
    (h6 : env.ok OperationType.update e = true) :
    ((Call.getService (env.serviceName e) ∈ (createV2Function env cfg e).2) ↔
      (cfg.minMemoryForConcurrency ≤ jsOrNat e.availableMemoryMb cfg.defaultMemory
        ∧ e.concurrency ≠ some 1)) ∧
    (∀ n c, Call.replaceService n c ∈ (createV2Function env cfg e).2 →
      n = env.serviceName e ∧ c = jsOrNat e.concurrency 80
        ∧ env.liveConcurrency (env.serviceName e) ≠ c) ∧
    ((Call.getService (env.serviceName e) ∈ (updateV2Function env cfg e).2) ↔
      (∃ c, e.concurrency = some c ∧ c ≠ 0)) ∧
    (∀ n c, Call.replaceService n c ∈ (updateV2Function env cfg e).2 →
      n = env.serviceName e ∧ e.concurrency = some c
        ∧ env.liveConcurrency (env.serviceName e) ≠ c) := by
  refine ⟨⟨?_, ?_⟩, ?_, ⟨?_, ?_⟩, ?_⟩
  · intro hm
    rcases mem_createV2Function env cfg e _ hm with ⟨t, hEq⟩ | hEq | h | h
    · exact absurd hEq (by simp)
    · exact absurd hEq (by simp)
    · rcases invokerPhaseCreate_calls env cfg e _ _ h with ⟨p, t, l, hEq⟩
      exact absurd hEq (by simp)
    · exact h.1
  · intro hc
    unfold createV2Function
    rw [h2]
    simp only [if_true]
    apply andCalls_mem_right
    · cases ht : env.buildV2Topic e <;> simp [execRun, h4]
    · apply andCalls_mem_right
      · simp [execRun, h3]
      · apply andCalls_mem_right
        · exact invokerPhase_ok env cfg e _ h5
        · rw [if_pos hc]
          exact getService_mem_setConcurrency env e _ _
  · intro n c hm
    rcases mem_createV2Function env cfg e _ hm with ⟨t, hEq⟩ | hEq | h | h
    · exact absurd hEq (by simp)
    · exact absurd hEq (by simp)
    · rcases invokerPhaseCreate_calls env cfg e _ _ h with ⟨p, t, l, hEq⟩
      exact absurd hEq (by simp)
    · rcases setConcurrency_replace_facts env e _ _ h.2 with ⟨hn, hcc, hl⟩
      exact ⟨hn, hcc, by rw [hcc]; exact hl⟩
  · intro hm
    rcases mem_updateV2Function env cfg e _ hm with hEq | ⟨p, t, l, hEq⟩ | ⟨c, hc, hz, h⟩
    · exact absurd hEq (by simp)
    · exact absurd hEq (by simp)
    · exact ⟨c, hc, hz⟩
  · intro ⟨c, hc, hz⟩
    unfold updateV2Function
    rw [h2]
    simp only [if_true]
    apply andCalls_mem_right
    · simp [execRun, h6]
    · apply andCalls_mem_right
      · exact invokerUpdatePart_ok env cfg e h5
      · simp only [hc]
        rw [if_neg hz]
        exact getService_mem_setConcurrency env e _ _
  · intro n c hm
    rcases mem_updateV2Function env cfg e _ hm with hEq | ⟨p, t, l, hEq⟩ | ⟨c', hc, hz, h⟩
    · exact absurd hEq (by simp)
    · exact absurd hEq (by simp)
    · rcases setConcurrency_replace_facts env e _ _ h with ⟨hn, hcc, hl⟩
      exact ⟨hn, by rw [hcc, hc], by rw [hcc]; exact hl⟩

theorem concurrency_policy_witness :
    cfgC7.hasStorage = true ∧
    Call.getService (envC7.serviceName epC7w) ∈ (createV2Function envC7 cfgC7 epC7w).2 :=
  ⟨rfl,
    ((concurrency_policy envC7 cfgC7 epC7w rfl rfl rfl rfl rfl).1).mpr (by decide)⟩

theorem runUpserts_append (env : Env) (cfg : Config) (l₁ l₂ : List Upsert) (s : Option String) :
    runUpserts env cfg (l₁ ++ l₂) s
      = ((runUpserts env cfg l₁ s).1
          ++ (runUpserts env cfg l₂ (runUpserts env cfg l₁ s).2.2).1,
         (runUpserts env cfg l₁ s).2.1
          ++ (runUpserts env cfg l₂ (runUpserts env cfg l₁ s).2.2).2.1,
         (runUpserts env cfg l₂ (runUpserts env cfg l₁ s).2.2).2.2) := by
  induction l₁ generalizing s with
  | nil => simp [runUpserts]
  | cons u rest ih => simp [runUpserts, ih]

theorem seqS_liftS_scraper (a : Except Err Unit × List Call × Option String)
    (c : Except Err Unit × List Call) :
    (seqS a (fun s' => liftS s' c)).2.2 = a.2.2 := by
  rcases a with ⟨r, t, s⟩
  cases r <;> rfl

/-- Every call of `createV1Function` is its single v1 create
submission — whose descriptor carries exactly the scraper token it was
given — or an invoker-phase call. -/
theorem createV1Function_submission (env : Env) (cfg : Config) (e : Endpoint) (s : Option String) :
    ∀ x ∈ (createV1Function env cfg e s).2.1,
      (∃ fn, x = Call.createFunctionV1 e fn ∧ fn.sourceToken = s) ∨
      x ∈ (invokerPhaseCreate env cfg e (functionName e)).2 := by
  intro x hx
  unfold createV1Function at hx
  cases hu : cfg.sourceUrl <;> simp only [hu] at hx
  · simp at hx
  · cases hok : env.ok OperationType.create e <;> simp [execRun, hok] at hx
    · exact Or.inl ⟨_, hx, rfl⟩
    · rcases hx with hx | hx
      · exact Or.inl ⟨_, hx, rfl⟩
      · exact Or.inr hx

/-- Every call of `updateV1Function` is its single v1 update
submission — whose descriptor carries exactly the scraper token it was
given — or a set-invoker call. -/
theorem updateV1Function_submission (env : Env) (cfg : Config) (e : Endpoint) (s : Option String) :
    ∀ x ∈ (updateV1Function env cfg e s).2.1,
      (∃ fn, x = Call.updateFunctionV1 e fn ∧ fn.sourceToken = s) ∨
      (∃ p t l, x = Call.setInvokerCall p t l) := by
  intro x hx
  unfold updateV1Function at hx
  cases hu : cfg.sourceUrl <;> simp only [hu] at hx
  · simp at hx
  · cases hok : env.ok OperationType.update e <;> simp [execRun, hok] at hx
    · exact Or.inl ⟨_, hx, rfl⟩
    · rcases hx with hx | hx
      · exact Or.inl ⟨_, hx, rfl⟩
      · rcases hi : invokerForUpdate cfg e with _ | inv <;> simp only [hi] at hx
        · simp at hx
        · simp [execRun] at hx
          exact Or.inr ⟨_, _, _, hx⟩

/-- Once the scraper has resolved token `t`, a v1 create submits a
descriptor carrying `t` and leaves the scraper resolved to `t`. -/
theorem createV1Function_token (env : Env) (cfg : Config) (e : Endpoint) (t : String) :
    (∀ x ∈ (createV1Function env cfg e (some t)).2.1, V1TokenIs t x) ∧
    (createV1Function env cfg e (some t)).2.2 = some t := by
  constructor
  · intro x hx
    rcases createV1Function_submission env cfg e (some t) x hx with ⟨fn, hEq, htok⟩ | h
    · refine ⟨?_, ?_⟩
      · intro e' fn' hEq'
        rw [hEq] at hEq'
        injection hEq' with h1 h2
        rw [← h2]
        exact htok
      · intro e' fn' hEq'
        rw [hEq] at hEq'
        exact absurd hEq' (by simp)
    · rcases invokerPhaseCreate_calls env cfg e _ x h with ⟨p, tt, l, hEq⟩
      rw [hEq]
      exact ⟨fun e' fn h => absurd h (by simp), fun e' fn h => absurd h (by simp)⟩
  · unfold createV1Function
    cases hu : cfg.sourceUrl <;> simp only [hu]
    · cases hok : env.ok OperationType.create e <;>
        simp [execRun, hok, feedToken]

/-- Once the scraper has resolved token `t`, a v1 update submits a
descriptor carrying `t` and leaves the scraper resolved to `t`. -/
theorem updateV1Function_token (env : Env) (cfg : Config) (e : Endpoint) (t : String) :
    (∀ x ∈ (updateV1Function env cfg e (some t)).2.1, V1TokenIs t x) ∧
    (updateV1Function env cfg e (some t)).2.2 = some t := by
  constructor
  · intro x hx
    rcases updateV1Function_submission env cfg e (some t) x hx with ⟨fn, hEq, htok⟩ |
        ⟨p, tt, l, hEq⟩
    · refine ⟨?_, ?_⟩
      · intro e' fn' hEq'
        rw [hEq] at hEq'
        exact absurd hEq' (by simp)
      · intro e' fn' hEq'
        rw [hEq] at hEq'
        injection hEq' with h1 h2
        rw [← h2]
        exact htok
    · rw [hEq]
      exact ⟨fun e' fn h => absurd h (by simp), fun e' fn h => absurd h (by simp)⟩
  · unfold updateV1Function
    cases hu : cfg.sourceUrl <;> simp only [hu]
    · cases hok : env.ok OperationType.update e <;>
        simp [execRun, hok, feedToken]

theorem deleteEndpoint_no_v1_submit (env : Env) (e : Endpoint) :
    ∀ x ∈ (deleteEndpoint env e).2, V1TokenIs t x := by
  intro x hx
  rcases deleteEndpoint_calls env e x hx with ⟨a, h⟩ | ⟨a, h⟩ | ⟨a, h⟩ | ⟨a, h⟩ | ⟨a, h⟩ | ⟨a, h⟩ <;>
    rw [h] <;>
    exact ⟨fun e' fn hc => absurd hc (by simp), fun e' fn hc => absurd hc (by simp)⟩

theorem setTrigger_no_v1_submit (env : Env) (e : Endpoint) (u : Bool) :
    ∀ x ∈ (setTrigger env e u).2, V1TokenIs t x := by
  intro x hx
  rcases setTrigger_calls env e u x hx with ⟨a, h⟩ | ⟨a, h⟩ | ⟨a, b, h⟩ | ⟨a, b, h⟩ <;>
    rw [h] <;>
    exact ⟨fun e' fn hc => absurd hc (by simp), fun e' fn hc => absurd hc (by simp)⟩

theorem createV2Function_no_v1_submit (env : Env) (cfg : Config) (e : Endpoint) :
    ∀ x ∈ (createV2Function env cfg e).2, V1TokenIs t x := by
  intro x hx
  rcases createV2Function_calls env cfg e x hx with ⟨a, h⟩ | ⟨a, h⟩ | ⟨a, b, c, h⟩ |
      ⟨a, h⟩ | ⟨a, b, h⟩ <;>
    rw [h] <;>
    exact ⟨fun e' fn hc => absurd hc (by simp), fun e' fn hc => absurd hc (by simp)⟩

theorem updateV2Function_no_v1_submit (env : Env) (cfg : Config) (e : Endpoint) :
    ∀ x ∈ (updateV2Function env cfg e).2, V1TokenIs t x := by
  intro x hx
  rcases mem_updateV2Function env cfg e x hx with h | ⟨a, b, c, h⟩ | ⟨c, hc, hz, h⟩
  · rw [h]
    exact ⟨fun e' fn hc => absurd hc (by simp), fun e' fn hc => absurd hc (by simp)⟩
  · rw [h]
    exact ⟨fun e' fn hc => absurd hc (by simp), fun e' fn hc => absurd hc (by simp)⟩
  · rcases setConcurrency_calls env e _ _ x h with h' | h' <;> rw [h'] <;>
      exact ⟨fun e' fn hc => absurd hc (by simp), fun e' fn hc => absurd hc (by simp)⟩

/-- Once the scraper has resolved token `t`, `createEndpoint` submits
only descriptors carrying `t` and keeps the scraper resolved to `t`. -/
theorem createEndpoint_token (env : Env) (cfg : Config) (e : Endpoint) (t : String) :
    (∀ x ∈ (createEndpoint env cfg e (some t)).2.1, V1TokenIs t x) ∧
    (createEndpoint env cfg e (some t)).2.2 = some t := by
  constructor
  · intro x hx
    unfold createEndpoint at hx
    rcases mem_seqS hx with h | h
    · rcases hp : e.platform <;> simp only [hp] at h
      · exact (createV1Function_token env cfg e t).1 x h
      · exact createV2Function_no_v1_submit env cfg e x (by simpa [liftS] using h)
    · exact setTrigger_no_v1_submit env e false x (by simpa [liftS] using h)
  · unfold createEndpoint
    rw [seqS_liftS_scraper]
    rcases hp : e.platform <;> simp only [hp]
    · exact (createV1Function_token env cfg e t).2
    · rfl

/-- Once the scraper has resolved token `t`, `updateEndpoint` submits
only descriptors carrying `t` and keeps the scraper resolved to `t`. -/
theorem updateEndpoint_token (env : Env) (cfg : Config) (u : EndpointUpdate) (t : String) :
    (∀ x ∈ (updateEndpoint env cfg u (some t)).2.1, V1TokenIs t x) ∧
    (updateEndpoint env cfg u (some t)).2.2 = some t := by
  cases hd : u.deleteAndRecreate with
  | some old =>
    constructor
    · intro x hx
      unfold updateEndpoint at hx
      rw [hd] at hx
      rcases mem_seqS hx with h | h
      · exact deleteEndpoint_no_v1_submit env old x (by simpa [liftS] using h)
      · exact (createEndpoint_token env cfg u.endpoint t).1 x (by simpa [liftS] using h)
    · unfold updateEndpoint
      rw [hd]
      cases hr : (deleteEndpoint env old).1 with
      | error err => simp [seqS, liftS, hr]
      | ok _ => simp [seqS, liftS, hr, (createEndpoint_token env cfg u.endpoint t).2]
  | none =>
    constructor
    · intro x hx
      unfold updateEndpoint at hx
      rw [hd] at hx
      rcases mem_seqS hx with h | h
      · rcases hp : u.endpoint.platform <;> simp only [hp] at h
        · exact (updateV1Function_token env cfg u.endpoint t).1 x h
        · exact updateV2Function_no_v1_submit env cfg u.endpoint x (by simpa [liftS] using h)
      · exact setTrigger_no_v1_submit env u.endpoint true x (by simpa [liftS] using h)
    · unfold updateEndpoint
      rw [hd, seqS_liftS_scraper]
      rcases hp : u.endpoint.platform <;> simp only [hp]
      · exact (updateV1Function_token env cfg u.endpoint t).2
      · rfl

/-- Once the scraper has resolved token `t`, every later queued upsert
submits only descriptors carrying `t`. -/
theorem runUpserts_token (env : Env) (cfg : Config) (l : List Upsert) (t : String) :
    (∀ x ∈ (runUpserts env cfg l (some t)).2.1, V1TokenIs t x) ∧
    (runUpserts env cfg l (some t)).2.2 = some t := by
  induction l with
  | nil => exact ⟨fun x hx => absurd hx (by simp [runUpserts]), rfl⟩
  | cons u rest ih =>
    have hu : (∀ x ∈ (runUpsert env cfg u (some t)).2.1, V1TokenIs t x) ∧
        (runUpsert env cfg u (some t)).2.2 = some t := by
      cases u with
      | create e => exact (createEndpoint_token env cfg e t)
      | update up => exact (updateEndpoint_token env cfg up t)
    constructor
    · intro x hx
      simp only [runUpserts, List.mem_append] at hx
      rcases hx with hx | hx
      · exact hu.1 x hx
      · rw [hu.2] at hx
        exact ih.1 x hx
    · simp only [runUpserts]
      rw [hu.2]
      exact ih.2

/-- C9: within one changeset, once any earlier queued operation has
resolved the scraper's token to `t` (first reported wins), the full
upsert trace splits after that prefix, and every later v1 create or
update submission in the changeset carries `sourceToken = t` — not an
empty token. -/
theorem source_token_reuse (env : Env) (cfg : Config) (pre rest : List Upsert) (t : String)
    (h : (runUpserts env cfg pre none).2.2 = some t) :
    (runUpserts env cfg (pre ++ rest) none).2.1
      = (runUpserts env cfg pre none).2.1 ++ (runUpserts env cfg rest (some t)).2.1 ∧
    ∀ e fn, (Call.createFunctionV1 e fn ∈ (runUpserts env cfg rest (some t)).2.1
          ∨ Call.updateFunctionV1 e fn ∈ (runUpserts env cfg rest (some t)).2.1) →
      fn.sourceToken = some t := by
  constructor
  · rw [runUpserts_append, h]
  · intro e fn hm
    rcases hm with hm | hm
    · exact ((runUpserts_token env cfg rest t).1 _ hm).1 e fn rfl
    · exact ((runUpserts_token env cfg rest t).1 _ hm).2 e fn rfl

theorem source_token_reuse_witness :
    (runUpserts envC9 cfgC9 [Upsert.create epC9a] none).2.2 = some "tok" ∧
    (runUpserts envC9 cfgC9 ([Upsert.create epC9a] ++ [Upsert.create epC9b]) none).2.1
      = (runUpserts envC9 cfgC9 [Upsert.create epC9a] none).2.1
          ++ (runUpserts envC9 cfgC9 [Upsert.create epC9b] (some "tok")).2.1 :=
  ⟨by decide,
    (source_token_reuse envC9 cfgC9 [Upsert.create epC9a] [Upsert.create epC9b] "tok"
      (by decide)).1⟩

theorem execRun_err {cfg : Config} {err : Err} (env : Env) (op : OperationType) (e : Endpoint)
    (calls : List Call) (h : (execRun env op e calls).1 = Except.error err) :
    DeployErrOn cfg err := by
  unfold execRun at h
  cases hok : env.ok op e <;> simp [hok] at h
  exact Or.inl ⟨e, op, h.symm⟩

theorem andCalls_err {err : Err} (a b : Except Err Unit × List Call)
    (h : (andCalls a b).1 = Except.error err) :
    a.1 = Except.error err ∨ b.1 = Except.error err := by
  rcases a with ⟨r, t⟩
  cases r with
  | error e0 => exact Or.inl h
  | ok _ => exact Or.inr h

theorem seqS_err {err : Err} (a : Except Err Unit × List Call × Option String)
    (b : Option String → Except Err Unit × List Call × Option String)
    (h : (seqS a b).1 = Except.error err) :
    a.1 = Except.error err ∨ (b a.2.2).1 = Except.error err := by
  rcases a with ⟨r, t, s⟩
  cases r with
  | error e0 => exact Or.inl h
  | ok _ => exact Or.inr h

theorem invokerPhaseCreate_err {cfg : Config} {err : Err} (env : Env) (e : Endpoint)
    (target : String) (h : (invokerPhaseCreate env cfg e target).1 = Except.error err) :
    DeployErrOn cfg err := by
  unfold invokerPhaseCreate at h
  rcases htr : e.trigger with inv | _ | _ | _ | inv | evt <;> simp only [htr] at h
  · by_cases hp : "private" ∈ inv.getD ["public"]
    · rw [if_pos hp] at h
      exact absurd h (by simp)
    · rw [if_neg hp] at h
      exact execRun_err env _ e _ h
  · exact execRun_err env _ e _ h
  · exact absurd h (by simp)
  · exact absurd h (by simp)
  · rcases inv with _ | inv
    · exact absurd h (by simp)
    · have h' : (if "private" ∈ inv then (Except.ok (), ([] : List Call))
          else execRun env OperationType.setInvoker e
            [Call.setInvokerCall e.project target inv]).1 = Except.error err := h
      by_cases hp : "private" ∈ inv
      · rw [if_pos hp] at h'
        exact absurd h' (by simp)
      · rw [if_neg hp] at h'
        exact execRun_err env _ e _ h'
  · by_cases hb : evt ∈ cfg.authBlockingEvents
    · rw [if_pos hb] at h
      exact execRun_err env _ e _ h
    · rw [if_neg hb] at h
      exact absurd h (by simp)

theorem setConcurrency_err {cfg : Config} {err : Err} (env : Env) (e : Endpoint)
    (name : String) (c : Nat) (h : (setConcurrency env e name c).1 = Except.error err) :
    DeployErrOn cfg err := by
  unfold setConcurrency at h
  cases hg : env.getServiceOk name <;> simp only [hg] at h
  · simp at h
    exact Or.inl ⟨e, OperationType.setConcurrency, h.symm⟩
  · by_cases hl : env.liveConcurrency name = c
    · rw [if_pos hl] at h
      exact absurd h (by simp)
    · rw [if_neg hl] at h
      exact execRun_err env _ e _ h

theorem createV1Function_err {err : Err} (env : Env) (cfg : Config) (e : Endpoint)
    (s : Option String) (h : (createV1Function env cfg e s).1 = Except.error err) :
    DeployErrOn cfg err := by
  unfold createV1Function at h
  cases hu : cfg.sourceUrl <;> simp only [hu] at h
  · simp at h
    exact Or.inr ⟨h.symm, Or.inl hu⟩
  · cases hok : env.ok OperationType.create e <;> simp [execRun, hok] at h
    · exact Or.inl ⟨e, OperationType.create, h.symm⟩
    · exact invokerPhaseCreate_err env e _ h

theorem createV2Function_err {err : Err} (env : Env) (cfg : Config) (e : Endpoint)
    (h : (createV2Function env cfg e).1 = Except.error err) :
    DeployErrOn cfg err := by
  unfold createV2Function at h
  cases hs : cfg.hasStorage <;> simp only [hs, if_false, if_true, Bool.false_eq_true] at h
  · simp at h
    exact Or.inr ⟨h.symm, Or.inr hs⟩
  · rcases andCalls_err _ _ h with h | h
    · cases ht : env.buildV2Topic e <;> simp only [ht] at h
      · exact absurd h (by simp)
      · exact execRun_err env _ e _ h
    · rcases andCalls_err _ _ h with h | h
      · exact execRun_err env _ e _ h
      · rcases andCalls_err _ _ h with h | h
        · exact invokerPhaseCreate_err env e _ h
        · by_cases hc : cfg.minMemoryForConcurrency ≤ jsOrNat e.availableMemoryMb cfg.defaultMemory
              ∧ e.concurrency ≠ some 1
          · rw [if_pos hc] at h
            exact setConcurrency_err env e _ _ h
          · rw [if_neg hc] at h
            exact absurd h (by simp)

theorem updateV1Function_err {err : Err} (env : Env) (cfg : Config) (e : Endpoint)
    (s : Option String) (h : (updateV1Function env cfg e s).1 = Except.error err) :
    DeployErrOn cfg err := by
  unfold updateV1Function at h
  cases hu : cfg.sourceUrl <;> simp only [hu] at h
  · simp at h
    exact Or.inr ⟨h.symm, Or.inl hu⟩
  · cases hok : env.ok OperationType.update e <;> simp [execRun, hok] at h
    · exact Or.inl ⟨e, OperationType.update, h.symm⟩
    · cases hi : invokerForUpdate cfg e <;> simp only [hi] at h
      · exact absurd h (by simp)
      · cases hok2 : env.ok OperationType.setInvoker e <;> simp [hok2] at h
        exact Or.inl ⟨e, OperationType.setInvoker, h.symm⟩

theorem updateV2Function_err {err : Err} (env : Env) (cfg : Config) (e : Endpoint)
    (h : (updateV2Function env cfg e).1 = Except.error err) :
    DeployErrOn cfg err := by
  unfold updateV2Function at h
  cases hs : cfg.hasStorage <;> simp only [hs, if_false, if_true, Bool.false_eq_true] at h
  · simp at h
    exact Or.inr ⟨h.symm, Or.inr hs⟩
  · rcases andCalls_err _ _ h with h | h
    · exact execRun_err env _ e _ h
    · rcases andCalls_err _ _ h with h | h
      · cases hi : invokerForUpdate cfg e <;> simp only [hi] at h
        · exact absurd h (by simp)
        · exact execRun_err env _ e _ h
      · cases hc : e.concurrency <;> simp only [hc] at h
        · exact absurd h (by simp)
        · rename_i c
          by_cases hz : c = 0
          · rw [if_pos hz] at h
            exact absurd h (by simp)
          · rw [if_neg hz] at h
            exact setConcurrency_err env e _ _ h

theorem setTrigger_err {cfg : Config} {err : Err} (env : Env) (e : Endpoint) (u : Bool)
    (h : (setTrigger env e u).1 = Except.error err) : DeployErrOn cfg err := by
  unfold setTrigger at h
  rcases htr : e.trigger with _ | _ | _ | _ | inv | _ <;> simp only [htr] at h
  · exact absurd h (by simp)
  · exact absurd h (by simp)
  · rcases hp : e.platform <;> simp only [hp] at h
    · exact execRun_err env _ e _ h
    · simp at h
      exact Or.inl ⟨e, OperationType.upsertSchedule, h.symm⟩
  · exact absurd h (by simp)
  · rcases andCalls_err _ _ h with h | h
    · exact execRun_err env _ e _ h
    · cases inv with
      | none => exact absurd h (by simp)
      | some inv => exact execRun_err env _ e _ h
  · exact execRun_err env _ e _ h

theorem deleteTrigger_err {cfg : Config} {err : Err} (env : Env) (e : Endpoint)
    (h : (deleteTrigger env e).1 = Except.error err) : DeployErrOn cfg err := by
  unfold deleteTrigger at h
  rcases htr : e.trigger with _ | _ | _ | _ | inv | _ <;> simp only [htr] at h
  · exact absurd h (by simp)
  · exact absurd h (by simp)
  · rcases hp : e.platform <;> simp only [hp] at h
    · rcases andCalls_err _ _ h with h | h <;> exact execRun_err env _ e _ h
    · simp at h
      exact Or.inl ⟨e, OperationType.deleteSchedule, h.symm⟩
  · exact absurd h (by simp)
  · exact execRun_err env _ e _ h
  · exact execRun_err env _ e _ h

theorem deleteEndpoint_err {cfg : Config} {err : Err} (env : Env) (e : Endpoint)
    (h : (deleteEndpoint env e).1 = Except.error err) : DeployErrOn cfg err := by
  unfold deleteEndpoint at h
  rcases andCalls_err _ _ h with h | h
  · exact deleteTrigger_err env e h
  · rcases hp : e.platform <;> simp only [hp] at h <;>
      exact execRun_err env _ e _ h

theorem createEndpoint_err {err : Err} (env : Env) (cfg : Config) (e : Endpoint)
    (s : Option String) (h : (createEndpoint env cfg e s).1 = Except.error err) :
    DeployErrOn cfg err := by
  unfold createEndpoint at h
  rcases seqS_err _ _ h with h | h
  · rcases hp : e.platform <;> simp only [hp] at h
    · exact createV1Function_err env cfg e s h
    · exact createV2Function_err env cfg e (by simpa [liftS] using h)
  · exact setTrigger_err env e false (by simpa [liftS] using h)

theorem updateEndpoint_err {err : Err} (env : Env) (cfg : Config) (u : EndpointUpdate)
    (s : Option String) (h : (updateEndpoint env cfg u s).1 = Except.error err) :
    DeployErrOn cfg err := by
  unfold updateEndpoint at h
  cases hd : u.deleteAndRecreate with
  | some old =>
    rw [hd] at h
    rcases seqS_err _ _ h with h | h
    · exact deleteEndpoint_err env old (by simpa [liftS] using h)
    · exact createEndpoint_err env cfg u.endpoint _ h
  | none =>
    rw [hd] at h
    rcases seqS_err _ _ h with h | h
    · rcases hp : u.endpoint.platform <;> simp only [hp] at h
      · exact updateV1Function_err env cfg u.endpoint s h
      · exact updateV2Function_err env cfg u.endpoint (by simpa [liftS] using h)
    · exact setTrigger_err env u.endpoint true (by simpa [liftS] using h)

theorem handleOp_err {err : Err} (env : Env) (op : OperationType) (e : Endpoint)
    (r : Except Err Unit) (h : (handleOp env op e r).error = some err) :
    r = Except.error err := by
  unfold handleOp at h
  cases r with
  | ok _ => simp at h
  | error e0 =>
    simp at h
    rw [h]

theorem runUpserts_err (env : Env) (cfg : Config) (l : List Upsert) (s : Option String) :
    ∀ r ∈ (runUpserts env cfg l s).1, ∀ err, r.error = some err → DeployErrOn cfg err := by
  induction l generalizing s with
  | nil => intro r hr; simp [runUpserts] at hr
  | cons u rest ih =>
    intro r hr err herr
    simp only [runUpserts, List.mem_cons] at hr
    rcases hr with hr | hr
    · cases u with
      | create e =>
        rw [hr] at herr
        exact createEndpoint_err env cfg e s (handleOp_err env _ e _ herr)
      | update up =>
        rw [hr] at herr
        exact updateEndpoint_err env cfg up s (handleOp_err env _ up.endpoint _ herr)
    · exact ih _ r hr err herr

theorem runDeletes_err (env : Env) (cfg : Config) (l : List Endpoint) :
    ∀ r ∈ (runDeletes env l).1, ∀ err, r.error = some err → DeployErrOn cfg err := by
  induction l with
  | nil => intro r hr; simp [runDeletes] at hr
  | cons e rest ih =>
    intro r hr err herr
    simp only [runDeletes, List.mem_cons] at hr
    rcases hr with hr | hr
    · rw [hr] at herr
      exact deleteEndpoint_err env e (handleOp_err env _ e _ herr)
    · exact ih r hr err herr

theorem applyChangeset_err (env : Env) (cfg : Config) (C : Changeset) :
    ∀ r ∈ (applyChangeset env cfg C).1, ∀ err, r.error = some err →
      DeployErrOn cfg err ∨ ∃ e, err = Err.aborted e := by
  intro r hr err herr
  unfold applyChangeset at hr
  by_cases ha : ((runUpserts env cfg (upsertsOf C) none).1.any fun r => r.error.isSome) = true
  · rw [if_pos ha] at hr
    rcases List.mem_append.mp hr with h | h
    · exact Or.inl (runUpserts_err env cfg _ none r h err herr)
    · rcases List.mem_map.mp h with ⟨e, hmem, hEq⟩
      rw [← hEq] at herr
      simp at herr
      exact Or.inr ⟨e, herr.symm⟩
  · rw [if_neg ha] at hr
    rcases List.mem_append.mp hr with h | h
    · exact Or.inl (runUpserts_err env cfg _ none r h err herr)
    · exact Or.inl (runDeletes_err env cfg _ r h err herr)

/-- C5 counterexample: with a missing v1 source locator the
`Error("Precondition failed")` thrown by `createV1Function` is caught
by the `handle` adapter of `applyChangeset` and recorded in the
endpoint's `DeployResult` — an error that is neither a
`DeploymentError` nor the synthetic `AbortedDeploymentError` reaches a
result instead of being raised out of `applyPlan`. -/
theorem error_taxonomy_counterexample :
    ({ endpoint := epC5, durationMs := 3, error := some Err.precondition } : DeployResult)
      ∈ (applyPlan envC5 cfgC5 planC5).1.results := by
  decide

/-- C5 amended: the only error values reaching a `DeployResult` are
`DeploymentError {endpoint, opKind}`, the synthetic
`AbortedDeploymentError` for skipped deletes, and — exactly when the
platform's source locator (`sourceUrl` for v1, `storage` for v2) is
missing — the precondition failure, which `createV1Function` /
`createV2Function` / `updateV1Function` / `updateV2Function` raise
before any network call and which the `handle` adapter then records in
that endpoint's result rather than letting it escape. -/
theorem error_taxonomy (env : Env) (cfg : Config) (plan : List Changeset) :
    ∀ r ∈ (applyPlan env cfg plan).1.results, ∀ err, r.error = some err →
      (∃ e op, err = Err.deployment e op) ∨ (∃ e, err = Err.aborted e) ∨
      (err = Err.precondition ∧ (cfg.sourceUrl = none ∨ cfg.hasStorage = false)) := by
  intro r hr err herr
  unfold applyPlan at hr
  simp only [List.mem_flatten, List.mem_map] at hr
  rcases hr with ⟨results, ⟨pr, ⟨C, hC, hpr⟩, hres⟩, hrmem⟩
  rw [← hpr] at hres
  rw [← hres] at hrmem
  rcases applyChangeset_err env cfg C r hrmem err herr with h | h
  · rcases h with ⟨e, op, hEq⟩ | ⟨hEq, hloc⟩
    · exact Or.inl ⟨e, op, hEq⟩
    · exact Or.inr (Or.inr ⟨hEq, hloc⟩)
  · exact Or.inr (Or.inl h)

theorem error_taxonomy_witness :
    ({ endpoint := epC5, durationMs := 3, error := some Err.precondition } : DeployResult)
      ∈ (applyPlan envC5 cfgC5 planC5).1.results ∧
    ((∃ e op, Err.precondition = Err.deployment e op) ∨
      (∃ e, Err.precondition = Err.aborted e) ∨
      (Err.precondition = Err.precondition ∧
        (cfgC5.sourceUrl = none ∨ cfgC5.hasStorage = false))) :=
  ⟨by decide,
    error_taxonomy envC5 cfgC5 planC5
      { endpoint := epC5, durationMs := 3, error := some Err.precondition }
      (by decide) Err.precondition rfl⟩

theorem setConcurrency_congr (env₁ env₂ : Env) (e : Endpoint) (c : Nat) (n : String)
    (hok : env₁.ok OperationType.setConcurrency e = env₂.ok OperationType.setConcurrency e)
    (hg : env₁.getServiceOk n = env₂.getServiceOk n)
    (hl : env₁.liveConcurrency n = env₂.liveConcurrency n) :
    setConcurrency env₁ e n c = setConcurrency env₂ e n c := by
  unfold setConcurrency execRun
  rw [hg, hl, hok]

theorem invokerPhaseCreate_congr (env₁ env₂ : Env) (cfg : Config) (e : Endpoint) (target : String)
    (hok : ∀ op, env₁.ok op e = env₂.ok op e) :
    invokerPhaseCreate env₁ cfg e target = invokerPhaseCreate env₂ cfg e target := by
  unfold invokerPhaseCreate execRun
  simp only [hok OperationType.setInvoker]

theorem createV1Function_congr (env₁ env₂ : Env) (cfg : Config) (e : Endpoint) (s : Option String)
    (h : AgreesOnEndpoint env₁ env₂ e) :
    createV1Function env₁ cfg e s = createV1Function env₂ cfg e s := by
  unfold createV1Function
  simp only [execRun, h.buildV1, h.pollToken, h.ok OperationType.create,
    invokerPhaseCreate_congr env₁ env₂ cfg e (functionName e) h.ok]

theorem createV2Function_congr (env₁ env₂ : Env) (cfg : Config) (e : Endpoint)
    (h : AgreesOnEndpoint env₁ env₂ e) :
    createV2Function env₁ cfg e = createV2Function env₂ cfg e := by
  have hg : env₁.getServiceOk (env₂.serviceName e) = env₂.getServiceOk (env₂.serviceName e) := by
    have hx := h.getServiceOk
    rw [h.serviceName] at hx
    exact hx
  have hl : env₁.liveConcurrency (env₂.serviceName e)
      = env₂.liveConcurrency (env₂.serviceName e) := by
    have hx := h.liveConcurrency
    rw [h.serviceName] at hx
    exact hx
  unfold createV2Function
  simp only [execRun, h.buildV2Topic, h.ok OperationType.createTopic, h.ok OperationType.create,
    h.serviceName, invokerPhaseCreate_congr env₁ env₂ cfg e (env₂.serviceName e) h.ok,
    setConcurrency_congr env₁ env₂ e (jsOrNat e.concurrency 80) (env₂.serviceName e)
      (h.ok OperationType.setConcurrency) hg hl]

theorem updateV1Function_congr (env₁ env₂ : Env) (cfg : Config) (e : Endpoint) (s : Option String)
    (h : AgreesOnEndpoint env₁ env₂ e) :
    updateV1Function env₁ cfg e s = updateV1Function env₂ cfg e s := by
  unfold updateV1Function
  simp only [execRun, h.buildV1, h.pollToken, h.ok OperationType.update,
    h.ok OperationType.setInvoker]

theorem updateV2Function_congr (env₁ env₂ : Env) (cfg : Config) (e : Endpoint)
    (h : AgreesOnEndpoint env₁ env₂ e) :
    updateV2Function env₁ cfg e = updateV2Function env₂ cfg e := by
  have hg : env₁.getServiceOk (env₂.serviceName e) = env₂.getServiceOk (env₂.serviceName e) := by
    have hx := h.getServiceOk
    rw [h.serviceName] at hx
    exact hx
  have hl : env₁.liveConcurrency (env₂.serviceName e)
      = env₂.liveConcurrency (env₂.serviceName e) := by
    have hx := h.liveConcurrency
    rw [h.serviceName] at hx
    exact hx
  have hsc : ∀ c, setConcurrency env₁ e (env₂.serviceName e) c
      = setConcurrency env₂ e (env₂.serviceName e) c := fun c =>
    setConcurrency_congr env₁ env₂ e c (env₂.serviceName e)
      (h.ok OperationType.setConcurrency) hg hl
  unfold updateV2Function
  simp only [execRun, h.ok OperationType.update, h.ok OperationType.setInvoker,
    h.serviceName, hsc]

theorem setTrigger_congr (env₁ env₂ : Env) (e : Endpoint) (u : Bool)
    (hok : ∀ op, env₁.ok op e = env₂.ok op e) :
    setTrigger env₁ e u = setTrigger env₂ e u := by
  unfold setTrigger execRun
  simp only [hok OperationType.upsertSchedule, hok OperationType.upsertTaskQueue,
    hok OperationType.setInvoker, hok OperationType.registerBlockingTrigger]

theorem deleteTrigger_congr (env₁ env₂ : Env) (e : Endpoint)
    (hok : ∀ op, env₁.ok op e = env₂.ok op e) :
    deleteTrigger env₁ e = deleteTrigger env₂ e := by
  unfold deleteTrigger execRun
  simp only [hok OperationType.deleteSchedule, hok OperationType.deleteTopic,
    hok OperationType.disableTaskQueue, hok OperationType.unregisterBlockingTrigger]

theorem deleteEndpoint_congr (env₁ env₂ : Env) (e : Endpoint)
    (h : AgreesOnEndpoint env₁ env₂ e) :
    deleteEndpoint env₁ e = deleteEndpoint env₂ e := by
  unfold deleteEndpoint deleteV1Function deleteV2Function execRun
  simp only [deleteTrigger_congr env₁ env₂ e h.ok, h.ok OperationType.delete]

theorem createEndpoint_congr (env₁ env₂ : Env) (cfg : Config) (e : Endpoint) (s : Option String)
    (h : AgreesOnEndpoint env₁ env₂ e) :
    createEndpoint env₁ cfg e s = createEndpoint env₂ cfg e s := by
  unfold createEndpoint
  simp only [createV1Function_congr env₁ env₂ cfg e s h, createV2Function_congr env₁ env₂ cfg e h,
    setTrigger_congr env₁ env₂ e false h.ok]

theorem updateEndpoint_congr (env₁ env₂ : Env) (cfg : Config) (u : EndpointUpdate)
    (s : Option String) (h : AgreesOnEndpoint env₁ env₂ u.endpoint)
    (hold : ∀ old, u.deleteAndRecreate = some old → AgreesOnEndpoint env₁ env₂ old) :
    updateEndpoint env₁ cfg u s = updateEndpoint env₂ cfg u s := by
  unfold updateEndpoint
  cases hd : u.deleteAndRecreate with
  | some old =>
    simp only [deleteEndpoint_congr env₁ env₂ old (hold old hd),
      createEndpoint_congr env₁ env₂ cfg u.endpoint]
    congr 1
    funext s'
    rw [createEndpoint_congr env₁ env₂ cfg u.endpoint s' h]
  | none =>
    simp only [updateV1Function_congr env₁ env₂ cfg u.endpoint s h,
      updateV2Function_congr env₁ env₂ cfg u.endpoint h,
      setTrigger_congr env₁ env₂ u.endpoint true h.ok]

theorem runUpsert_congr (env₁ env₂ : Env) (cfg : Config) (u : Upsert) (s : Option String)
    (h : UpsertAgrees env₁ env₂ u) :
    runUpsert env₁ cfg u s = runUpsert env₂ cfg u s := by
  cases u with
  | create e =>
    unfold runUpsert handleOp
    simp only [createEndpoint_congr env₁ env₂ cfg e s h, h.duration OperationType.create]
  | update up =>
    unfold runUpsert handleOp
    simp only [updateEndpoint_congr env₁ env₂ cfg up s h.1 h.2,
      h.1.duration OperationType.update]

theorem runUpserts_congr (env₁ env₂ : Env) (cfg : Config) (l : List Upsert) (s : Option String)
    (h : ∀ u ∈ l, UpsertAgrees env₁ env₂ u) :
    runUpserts env₁ cfg l s = runUpserts env₂ cfg l s := by
  induction l generalizing s with
  | nil => rfl
  | cons u rest ih =>
    simp only [runUpserts]
    rw [runUpsert_congr env₁ env₂ cfg u s (h u (by simp)),
      ih _ (fun v hv => h v (by simp [hv]))]

theorem runDeletes_congr (env₁ env₂ : Env) (l : List Endpoint)
    (h : ∀ e ∈ l, AgreesOnEndpoint env₁ env₂ e) :
    runDeletes env₁ l = runDeletes env₂ l := by
  induction l with
  | nil => rfl
  | cons e rest ih =>
    simp only [runDeletes, handleOp]
    rw [deleteEndpoint_congr env₁ env₂ e (h e (by simp)),
      ih (fun v hv => h v (by simp [hv]))]
    simp only [(h e (by simp)).duration OperationType.delete]

theorem applyChangeset_congr (env₁ env₂ : Env) (cfg : Config) (C : Changeset)
    (h : AgreesOn env₁ env₂ C) :
    applyChangeset env₁ cfg C = applyChangeset env₂ cfg C := by
  have hup : ∀ u ∈ upsertsOf C, UpsertAgrees env₁ env₂ u := by
    intro u hu
    rcases List.mem_append.mp hu with hc | hm
    · rcases List.mem_map.mp hc with ⟨e, he, hEq⟩
      rw [← hEq]
      exact h e (by simp [Changeset.allEndpoints, he])
    · rcases List.mem_map.mp hm with ⟨up, hup', hEq⟩
      rw [← hEq]
      refine ⟨h up.endpoint ?_, fun old hold => h old ?_⟩
      · simp only [Changeset.allEndpoints, List.mem_append]
        exact Or.inl (Or.inl (Or.inr (List.mem_map.mpr ⟨up, hup', rfl⟩)))
      · simp only [Changeset.allEndpoints, List.mem_append]
        exact Or.inl (Or.inr (List.mem_filterMap.mpr ⟨up, hup', hold⟩))
  have hdel : ∀ e ∈ C.endpointsToDelete, AgreesOnEndpoint env₁ env₂ e := by
    intro e he
    exact h e (by simp [Changeset.allEndpoints, he])
  unfold applyChangeset
  rw [runUpserts_congr env₁ env₂ cfg (upsertsOf C) none hup,
    runDeletes_congr env₁ env₂ C.endpointsToDelete hdel]

/-- Changeset isolation of the queue-free projection: in `applyPlan`
(which drops the shared trigger-queue channel), `B`'s block of
`DeployResult`s is exactly `applyChangeset` of `B` computed under any
oracle agreeing on the endpoints `B` touches.  This is a lemma about
the projection; the program itself violates this isolation through the
shared trigger queue (see `changeset_isolation_counterexample`), and
the claim is settled by `changeset_isolation_amended` over the refined
interpreter `applyPlanQ`. -/
theorem changeset_isolation (env₁ env₂ : Env) (cfg : Config) (B : Changeset)
    (pre post : List Changeset) (h : AgreesOn env₁ env₂ B) :
    (applyPlan env₁ cfg (pre ++ B :: post)).1.results
      = (applyPlan env₁ cfg pre).1.results ++ (applyChangeset env₂ cfg B).1
        ++ (applyPlan env₁ cfg post).1.results := by
  simp [applyPlan, List.map_append, List.flatten_append,
    applyChangeset_congr env₁ env₂ cfg B h, List.append_assoc]

namespace TriggerQueue

theorem inv_init : Inv init := by
  refine ⟨?_, ?_, ?_, ?_, ?_⟩
  · intro i h
    simp [init] at h
  · intro i h
    simp [init] at h
  · intro i h
    simp [init] at h
  · intro h
    simp [init] at h
  · intro i h
    simp [init] at h

theorem inv_step {s s' : QState} (hstep : Step s s') (hinv : Inv s) : Inv s' := by
  obtain ⟨h1, h2, h3, h4, h5⟩ := hinv
  cases hstep with
  | start i hprev hns =>
    refine ⟨?_, ?_, ?_, ?_, ?_⟩
    · intro k hk
      simp only at hk ⊢
      by_cases hki : k = i
      · subst hki
        have := h1 k hk
        rw [hns] at this
        exact absurd this (by simp)
      · simpa [hki] using h1 k hk
    · intro k hk
      simp only at hk ⊢
      by_cases hki : k = i
      · subst hki
        cases k with
        | zero =>
          have := h4 hk
          rw [hns] at this
          exact absurd this (by simp)
        | succ m =>
          rcases h5 m hk with hd | hr
          · rw [hns] at hd
            exact absurd hd (by simp)
          · unfold prevFulfilled at hprev
            rw [hprev] at hr
            exact absurd hr (by simp)
      · simpa [hki] using h2 k hk
    · intro k hk j hj
      simp only at hk ⊢
      by_cases hki : k = i
      · subst hki
        have hji : j ≠ k := Nat.ne_of_lt hj
        simp only [hji, if_neg]
        cases k with
        | zero => exact absurd hj (Nat.not_lt_zero j)
        | succ m =>
          unfold prevFulfilled at hprev
          have hm : s.call m = CallStatus.doneOk := h1 m hprev
          rcases Nat.lt_succ_iff_lt_or_eq.mp hj with hjm | hjm
          · exact h3 m (by rw [hm]; simp) j hjm
          · rw [hjm]
            exact hm
      · rw [if_neg hki] at hk
        by_cases hji : j = i
        · subst hji
          have := h3 k hk j hj
          rw [hns] at this
          exact absurd this (by simp)
        · simpa [hji] using h3 k hk j hj
    · intro hk
      simp only at hk ⊢
      by_cases h0 : (0 : Nat) = i
      · rw [← h0] at hns
        have := h4 hk
        rw [hns] at this
        exact absurd this (by simp)
      · simpa [h0] using h4 hk
    · intro k hk
      simp only at hk ⊢
      by_cases hki : k + 1 = i
      · rcases h5 k hk with hd | hr
        · rw [hki, hns] at hd
          exact absurd hd (by simp)
        · exact Or.inr hr
      · rcases h5 k hk with hd | hr
        · exact Or.inl (by simpa [hki] using hd)
        · exact Or.inr hr
  | finishOk i hr =>
    refine ⟨?_, ?_, ?_, ?_, ?_⟩
    · intro k hk
      simp only at hk ⊢
      by_cases hki : k = i
      · simp [hki]
      · simpa [hki] using h1 k hk
    · intro k hk
      simp only at hk ⊢
      by_cases hki : k = i
      · subst hki
        rcases h2 k hk with hd | hn
        · rw [hr] at hd
          exact absurd hd (by simp)
        · rw [hr] at hn
          exact absurd hn (by simp)
      · simpa [hki] using h2 k hk
    · intro k hk j hj
      simp only at hk ⊢
      by_cases hji : j = i
      · simp [hji]
      · rw [if_neg hji]
        by_cases hki : k = i
        · subst hki
          exact h3 k (by rw [hr]; simp) j hj
        · rw [if_neg hki] at hk
          exact h3 k hk j hj
    · intro hk
      simp only at hk ⊢
      by_cases h0 : (0 : Nat) = i
      · rw [← h0] at hr
        have := h4 hk
        rw [hr] at this
        exact absurd this (by simp)
      · simpa [h0] using h4 hk
    · intro k hk
      simp only at hk ⊢
      rcases h5 k hk with hd | hrj
      · by_cases hki : k + 1 = i
        · rw [hki, hr] at hd
          exact absurd hd (by simp)
        · exact Or.inl (by simpa [hki] using hd)
      · exact Or.inr hrj
  | finishErr i hr =>
    refine ⟨?_, ?_, ?_, ?_, ?_⟩
    · intro k hk
      simp only at hk ⊢
      by_cases hki : k = i
      · subst hki
        have := h1 k hk
        rw [hr] at this
        exact absurd this (by simp)
      · simpa [hki] using h1 k hk
    · intro k hk
      simp only at hk ⊢
      by_cases hki : k = i
      · simp [hki]
      · simpa [hki] using h2 k hk
    · intro k hk j hj
      simp only at hk ⊢
      by_cases hki : k = i
      · subst hki
        have hji : j ≠ k := Nat.ne_of_lt hj
        rw [if_neg hji]
        exact h3 k (by rw [hr]; simp) j hj
      · rw [if_neg hki] at hk
        by_cases hji : j = i
        · subst hji
          have := h3 k hk j hj
          rw [hr] at this
          exact absurd this (by simp)
        · simpa [hji] using h3 k hk j hj
    · intro hk
      simp only at hk ⊢
      by_cases h0 : (0 : Nat) = i
      · simp [← h0]
      · simpa [h0] using h4 hk
    · intro k hk
      simp only at hk ⊢
      rcases h5 k hk with hd | hrj
      · by_cases hki : k + 1 = i
        · simp [hki]
        · exact Or.inl (by simpa [hki] using hd)
      · exact Or.inr hrj
  | fulfill i hc hp =>
    refine ⟨?_, ?_, ?_, ?_, ?_⟩
    · intro k hk
      simp only at hk ⊢
      by_cases hki : k = i
      · subst hki
        exact hc
      · rw [if_neg hki] at hk
        exact h1 k hk
    · intro k hk
      simp only at hk ⊢
      by_cases hki : k = i
      · rw [if_pos hki] at hk
        exact absurd hk (by simp)
      · rw [if_neg hki] at hk
        exact h2 k hk
    · exact h3
    · intro hk
      simp only at hk ⊢
      by_cases h0 : (0 : Nat) = i
      · rw [if_pos h0] at hk
        exact absurd hk (by simp)
      · rw [if_neg h0] at hk
        exact h4 hk
    · intro k hk
      simp only at hk ⊢
      by_cases hki : k + 1 = i
      · rw [if_pos hki] at hk
        exact absurd hk (by simp)
      · rw [if_neg hki] at hk
        rcases h5 k hk with hd | hrj
        · exact Or.inl hd
        · by_cases hki' : k = i
          · subst hki'
            rw [hp] at hrj
            exact absurd hrj (by simp)
          · exact Or.inr (by simpa [hki'] using hrj)
  | rejectOwn i hc hp =>
    refine ⟨?_, ?_, ?_, ?_, ?_⟩
    · intro k hk
      simp only at hk ⊢
      by_cases hki : k = i
      · rw [if_pos hki] at hk
        exact absurd hk (by simp)
      · rw [if_neg hki] at hk
        exact h1 k hk
    · intro k hk
      simp only at hk ⊢
      by_cases hki : k = i
      · subst hki
        exact Or.inl hc
      · rw [if_neg hki] at hk
        exact h2 k hk
    · exact h3
    · intro hk
      simp only at hk ⊢
      by_cases h0 : (0 : Nat) = i
      · rw [← h0] at hc
        exact hc
      · rw [if_neg h0] at hk
        exact h4 hk
    · intro k hk
      simp only at hk ⊢
      by_cases hki : k + 1 = i
      · rw [← hki] at hc
        exact Or.inl hc
      · rw [if_neg hki] at hk
        rcases h5 k hk with hd | hrj
        · exact Or.inl hd
        · by_cases hki' : k = i
          · exact Or.inr (by simp [hki'])
          · exact Or.inr (by simpa [hki'] using hrj)
  | rejectProp i hrej hp hns =>
    refine ⟨?_, ?_, ?_, ?_, ?_⟩
    · intro k hk
      simp only at hk ⊢
      by_cases hki : k = i + 1
      · rw [if_pos hki] at hk
        exact absurd hk (by simp)
      · rw [if_neg hki] at hk
        exact h1 k hk
    · intro k hk
      simp only at hk ⊢
      by_cases hki : k = i + 1
      · subst hki
        exact Or.inr hns
      · rw [if_neg hki] at hk
        exact h2 k hk
    · exact h3
    · intro hk
      simp only at hk ⊢
      rw [if_neg (by simp)] at hk
      exact h4 hk
    · intro k hk
      simp only at hk ⊢
      by_cases hki : k + 1 = i + 1
      · have hki' : k = i := Nat.succ_injective hki
        subst hki'
        exact Or.inr (by simp [hrej])
      · rw [if_neg hki] at hk
        rcases h5 k hk with hd | hrj
        · exact Or.inl hd
        · by_cases hki' : k = i + 1
          · subst hki'
            rw [hp] at hrj
            exact absurd hrj (by simp)
          · exact Or.inr (by simpa [hki'] using hrj)
  | tick n =>
    exact ⟨h1, h2, h3, h4, h5⟩

theorem inv_reachable {s : QState} (h : Reachable s) : Inv s := by
  unfold Reachable at h
  induction h with
  | refl => exact inv_init
  | tail hsteps hstep ih => exact inv_step hstep ih

/-- C3 counterexample: after the first blocking-trigger call fails,
its rejection propagates down the chain — the second submitter's
returned promise settles (rejected) in a reachable state in which the
second backend call was never started, contradicting "each submitter's
returned promise settles exactly when its own call completes". -/
theorem trigger_queue_settle_counterexample :
    ∃ s : QState, Reachable s ∧ s.chain 1 = ChainStatus.rejected ∧
      s.call 1 = CallStatus.notStarted := by
  have h := Relation.ReflTransGen.tail
    (Relation.ReflTransGen.tail
      (Relation.ReflTransGen.tail
        (Relation.ReflTransGen.tail Relation.ReflTransGen.refl
          (Step.start init 0 trivial rfl))
        (Step.finishErr _ 0 rfl))
      (Step.rejectOwn _ 0 rfl rfl))
    (Step.rejectProp _ 0 rfl rfl rfl)
  exact ⟨_, h, rfl, rfl⟩

/-- C3 amended: in every reachable trigger-queue state, if submission
j's call has started then every earlier submission's call has already
completed successfully (so R1's backend call completes before R2's
begins, whatever other asynchronous work does); a submitter's returned
chain promise is fulfilled only once its own call completed
successfully; but a rejected chain promise means either the
submitter's own call failed or — when an earlier call in the chain
failed — the promise settled with the propagated rejection without the
submitter's call ever starting. -/
theorem trigger_queue_order (s : QState) (h : Reachable s) :
    (∀ i j, i < j → s.call j ≠ CallStatus.notStarted → s.call i = CallStatus.doneOk) ∧
    (∀ i, s.chain i = ChainStatus.fulfilled → s.call i = CallStatus.doneOk) ∧
    (∀ i, s.chain i = ChainStatus.rejected →
      s.call i = CallStatus.doneErr ∨ s.call i = CallStatus.notStarted) := by
  obtain ⟨h1, h2, h3, h4, h5⟩ := inv_reachable h
  exact ⟨fun i j hij hj => h3 j hj i hij, h1, h2⟩

theorem trigger_queue_order_witness :
    ∃ s : QState, Reachable s ∧ s.call 1 ≠ CallStatus.notStarted ∧
      s.call 0 = CallStatus.doneOk := by
  have hreach := Relation.ReflTransGen.tail
    (Relation.ReflTransGen.tail
      (Relation.ReflTransGen.tail Relation.ReflTransGen.refl
        (Step.start init 0 trivial rfl))
      (Step.finishOk _ 0 rfl))
    (Step.fulfill _ 0 rfl rfl)
  have hreach2 := Relation.ReflTransGen.tail hreach (Step.start _ 1 rfl rfl)
  refine ⟨_, hreach2, ?_, ?_⟩
  · simp
  · exact (trigger_queue_order _ hreach2).1 0 1 (by omega) (by simp)

end TriggerQueue

/-- The trigger queue is transparent to an endpoint in state `tq` when
its trigger wiring and teardown behave like the queue-free projection
and pass `tq` through unchanged. -/
def TQTransparent (env : Env) (tq : Option Err) (e : Endpoint) : Prop :=
  (∀ u, setTriggerQ env e u tq = ((setTrigger env e u).1, (setTrigger env e u).2, tq)) ∧
  deleteTriggerQ env e tq = ((deleteTrigger env e).1, (deleteTrigger env e).2, tq)

/-- While the chain is unrejected and the endpoint's blocking calls
succeed, the queue stays unrejected and transparent. -/
theorem tqTransparent_of_ok (env : Env) (e : Endpoint)
    (hr : env.ok OperationType.registerBlockingTrigger e = true)
    (hu : env.ok OperationType.unregisterBlockingTrigger e = true) :
    TQTransparent env none e := by
  constructor
  · intro u
    unfold setTriggerQ
    rcases htr : e.trigger with inv | _ | _ | _ | inv | evt <;> simp only [htr] <;>
      first
        | rfl
        | simp [registerBlockingTriggerQ, setTrigger, htr, execRun, hr]
  · unfold deleteTriggerQ
    rcases htr : e.trigger with inv | _ | _ | _ | inv | evt <;> simp only [htr] <;>
      first
        | rfl
        | simp [unregisterBlockingTriggerQ, deleteTrigger, htr, execRun, hu]

/-- A non-blocking endpoint never touches the chain, whatever its
state. -/
theorem tqTransparent_of_nonBlocking (env : Env) (tq : Option Err) (e : Endpoint)
    (h : NonBlocking e) : TQTransparent env tq e := by
  constructor
  · intro u
    unfold setTriggerQ
    rcases htr : e.trigger with inv | _ | _ | _ | inv | evt <;> simp only [htr] <;>
      first
        | rfl
        | exact absurd htr (h _)
  · unfold deleteTriggerQ
    rcases htr : e.trigger with inv | _ | _ | _ | inv | evt <;> simp only [htr] <;>
      first
        | rfl
        | exact absurd htr (h _)

theorem createEndpointQ_eq (env : Env) (cfg : Config) (e : Endpoint) (s : Option String)
    (tq : Option Err) (h : TQTransparent env tq e) :
    createEndpointQ env cfg e s tq
      = ((createEndpoint env cfg e s).1, (createEndpoint env cfg e s).2.1,
         (createEndpoint env cfg e s).2.2, tq) := by
  unfold createEndpointQ createEndpoint
  rcases hp : e.platform <;> simp only [hp]
  · rcases hres : createV1Function env cfg e s with ⟨r, t, s'⟩
    cases r <;> simp [hres, seqS, liftS, h.1 false]
  · rcases hres : createV2Function env cfg e with ⟨r, t⟩
    cases r <;> simp [hres, seqS, liftS, h.1 false]

theorem deleteEndpointQ_eq (env : Env) (e : Endpoint) (tq : Option Err)
    (h : TQTransparent env tq e) :
    deleteEndpointQ env e tq
      = ((deleteEndpoint env e).1, (deleteEndpoint env e).2, tq) := by
  unfold deleteEndpointQ deleteEndpoint
  rw [h.2]
  rcases hres : deleteTrigger env e with ⟨r, t⟩
  cases r <;> simp [hres, andCalls]

theorem updateEndpointQ_eq (env : Env) (cfg : Config) (u : EndpointUpdate) (s : Option String)
    (tq : Option Err) (h : TQTransparent env tq u.endpoint)
    (hold : ∀ old, u.deleteAndRecreate = some old → TQTransparent env tq old) :
    updateEndpointQ env cfg u s tq
      = ((updateEndpoint env cfg u s).1, (updateEndpoint env cfg u s).2.1,
         (updateEndpoint env cfg u s).2.2, tq) := by
  cases hd : u.deleteAndRecreate with
  | some old =>
    simp only [updateEndpointQ, updateEndpoint, hd,
      deleteEndpointQ_eq env old tq (hold old hd)]
    rcases hres : deleteEndpoint env old with ⟨r, t⟩
    cases r <;>
      simp [hres, seqS, liftS, createEndpointQ_eq env cfg u.endpoint s tq h]
  | none =>
    simp only [updateEndpointQ, updateEndpoint, hd]
    rcases hp : u.endpoint.platform <;> simp only [hp]
    · rcases hres : updateV1Function env cfg u.endpoint s with ⟨r, t, s'⟩
      cases r <;> simp [hres, seqS, liftS, h.1 true]
    · rcases hres : updateV2Function env cfg u.endpoint with ⟨r, t⟩
      cases r <;> simp [hres, seqS, liftS, h.1 true]

/-- Queue transparency needed to run one queued upsert like the
projection. -/
def UpsertTransparent (env : Env) (tq : Option Err) : Upsert → Prop
  | Upsert.create e => TQTransparent env tq e
  | Upsert.update u => TQTransparent env tq u.endpoint ∧
      ∀ old, u.deleteAndRecreate = some old → TQTransparent env tq old

theorem runUpsertQ_eq (env : Env) (cfg : Config) (u : Upsert) (s : Option String)
    (tq : Option Err) (h : UpsertTransparent env tq u) :
    runUpsertQ env cfg u s tq
      = ((runUpsert env cfg u s).1, (runUpsert env cfg u s).2.1,
         (runUpsert env cfg u s).2.2, tq) := by
  cases u with
  | create e =>
    simp only [runUpsertQ, runUpsert, createEndpointQ_eq env cfg e s tq h]
  | update up =>
    simp only [runUpsertQ, runUpsert, updateEndpointQ_eq env cfg up s tq h.1 h.2]

theorem runUpsertsQ_eq (env : Env) (cfg : Config) (l : List Upsert) (s : Option String)
    (tq : Option Err) (h : ∀ u ∈ l, UpsertTransparent env tq u) :
    runUpsertsQ env cfg l s tq
      = ((runUpserts env cfg l s).1, (runUpserts env cfg l s).2.1,
         (runUpserts env cfg l s).2.2, tq) := by
  induction l generalizing s with
  | nil => rfl
  | cons u rest ih =>
    simp only [runUpsertsQ, runUpserts]
    rw [runUpsertQ_eq env cfg u s tq (h u (by simp)),
      ih _ (fun v hv => h v (by simp [hv]))]

theorem runDeletesQ_eq (env : Env) (l : List Endpoint) (tq : Option Err)
    (h : ∀ e ∈ l, TQTransparent env tq e) :
    runDeletesQ env l tq
      = ((runDeletes env l).1, (runDeletes env l).2, tq) := by
  induction l with
  | nil => rfl
  | cons e rest ih =>
    simp only [runDeletesQ, runDeletes]
    rw [deleteEndpointQ_eq env e tq (h e (by simp)),
      ih (fun v hv => h v (by simp [hv]))]

theorem applyChangesetQ_eq (env : Env) (cfg : Config) (C : Changeset) (tq : Option Err)
    (h : ∀ e ∈ C.allEndpoints, TQTransparent env tq e) :
    applyChangesetQ env cfg C tq
      = ((applyChangeset env cfg C).1, (applyChangeset env cfg C).2, tq) := by
  have hup : ∀ u ∈ upsertsOf C, UpsertTransparent env tq u := by
    intro u hu
    rcases List.mem_append.mp hu with hc | hm
    · rcases List.mem_map.mp hc with ⟨e, he, hEq⟩
      rw [← hEq]
      exact h e (by simp [Changeset.allEndpoints, he])
    · rcases List.mem_map.mp hm with ⟨up, hup', hEq⟩
      rw [← hEq]
      refine ⟨h up.endpoint ?_, fun old hold => h old ?_⟩
      · simp only [Changeset.allEndpoints, List.mem_append]
        exact Or.inl (Or.inl (Or.inr (List.mem_map.mpr ⟨up, hup', rfl⟩)))
      · simp only [Changeset.allEndpoints, List.mem_append]
        exact Or.inl (Or.inr (List.mem_filterMap.mpr ⟨up, hup', hold⟩))
  have hdel : ∀ e ∈ C.endpointsToDelete, TQTransparent env tq e := by
    intro e he
    exact h e (by simp [Changeset.allEndpoints, he])
  unfold applyChangesetQ applyChangeset
  rw [runUpsertsQ_eq env cfg (upsertsOf C) none tq hup]
  cases ha : (runUpserts env cfg (upsertsOf C) none).1.any (fun r => r.error.isSome) <;>
    simp [ha, runDeletesQ_eq env C.endpointsToDelete tq hdel]

theorem applyChangesetsQ_noBlockingFailure (env : Env) (cfg : Config) (plan : List Changeset)
    (hr : ∀ e, env.ok OperationType.registerBlockingTrigger e = true)
    (hu : ∀ e, env.ok OperationType.unregisterBlockingTrigger e = true) :
    applyChangesetsQ env cfg plan none
      = ((applyPlan env cfg plan).1.results, (applyPlan env cfg plan).2, none) := by
  induction plan with
  | nil => rfl
  | cons C rest ih =>
    simp only [applyChangesetsQ]
    rw [applyChangesetQ_eq env cfg C none
        (fun e _ => tqTransparent_of_ok env e (hr e) (hu e)), ih]
    simp [applyPlan]

/-- When no blocking-trigger call in the plan fails, the refined
interpreter coincides with the queue-free projection. -/
theorem applyPlanQ_noBlockingFailure (env : Env) (cfg : Config) (plan : List Changeset)
    (hr : ∀ e, env.ok OperationType.registerBlockingTrigger e = true)
    (hu : ∀ e, env.ok OperationType.unregisterBlockingTrigger e = true) :
    applyPlanQ env cfg plan = applyPlan env cfg plan := by
  unfold applyPlanQ
  rw [applyChangesetsQ_noBlockingFailure env cfg plan hr hu]
  rfl

theorem applyChangesetsQ_append (env : Env) (cfg : Config) (l₁ l₂ : List Changeset)
    (tq : Option Err) :
    applyChangesetsQ env cfg (l₁ ++ l₂) tq
      = ((applyChangesetsQ env cfg l₁ tq).1
           ++ (applyChangesetsQ env cfg l₂ (applyChangesetsQ env cfg l₁ tq).2.2).1,
         (applyChangesetsQ env cfg l₁ tq).2.1
           ++ (applyChangesetsQ env cfg l₂ (applyChangesetsQ env cfg l₁ tq).2.2).2.1,
         (applyChangesetsQ env cfg l₂ (applyChangesetsQ env cfg l₁ tq).2.2).2.2) := by
  induction l₁ generalizing tq with
  | nil => simp [applyChangesetsQ]
  | cons C rest ih => simp [applyChangesetsQ, ih]

/-- C4 counterexample: in the refined interpreter, changesets A and B
each create one blocking-triggered endpoint and the two oracles agree
on everything B touches, differing only in whether A's blocking
registration succeeds.  When A's registration fails, the shared
trigger queue rejects, B's registration callback is skipped, and B's
`DeployResult` carries A's `DeploymentError`; when A succeeds, B's
result has no error — so an error in A's creates alters B's results,
refuting the claim. -/
theorem changeset_isolation_counterexample :
    AgreesOn envC4qfail envC4qok csC4QB ∧
    ({ endpoint := epC4qb, durationMs := 0,
       error := some (Err.deployment epC4qa OperationType.registerBlockingTrigger) } :
        DeployResult)
      ∈ (applyPlanQ envC4qfail cfgC4 [csC4QA, csC4QB]).1.results ∧
    ({ endpoint := epC4qb, durationMs := 0, error := none } : DeployResult)
      ∈ (applyPlanQ envC4qok cfgC4 [csC4QA, csC4QB]).1.results := by
  refine ⟨?_, by decide, by decide⟩
  intro e he
  simp [Changeset.allEndpoints, csC4QB] at he
  subst he
  refine ⟨fun op => ?_, fun op => rfl, rfl, rfl, rfl, rfl, rfl, rfl⟩
  cases op <;> rfl

/-- C4 amended: changeset isolation holds except through the shared
blocking-trigger queue.  (1) When no blocking-trigger (un)registration
in the plan fails, `B`'s block of results in the refined interpreter
is exactly `applyChangeset` of `B` under any oracle agreeing on the
endpoints `B` touches — errors in sibling changesets' creates and
updates cannot alter or abort `B`'s results.  (2) A changeset with no
blocking-triggered endpoints enjoys the same isolation
unconditionally, even while blocking failures elsewhere reject the
queue for others. -/
theorem changeset_isolation_amended (env₁ env₂ : Env) (cfg : Config) (B : Changeset)
    (pre post : List Changeset) (h : AgreesOn env₁ env₂ B) :
    ((∀ e, env₁.ok OperationType.registerBlockingTrigger e = true) →
     (∀ e, env₁.ok OperationType.unregisterBlockingTrigger e = true) →
      (applyPlanQ env₁ cfg (pre ++ B :: post)).1.results
        = (applyPlanQ env₁ cfg pre).1.results ++ (applyChangeset env₂ cfg B).1
          ++ (applyPlanQ env₁ cfg post).1.results) ∧
    ((∀ e ∈ B.allEndpoints, NonBlocking e) →
      (applyPlanQ env₁ cfg (pre ++ B :: post)).1.results
        = (applyPlanQ env₁ cfg pre).1.results ++ (applyChangeset env₂ cfg B).1
          ++ (applyChangesetsQ env₁ cfg post
                (applyChangesetsQ env₁ cfg pre none).2.2).1) := by
  constructor
  · intro hr hu
    rw [applyPlanQ_noBlockingFailure env₁ cfg (pre ++ B :: post) hr hu,
      applyPlanQ_noBlockingFailure env₁ cfg pre hr hu,
      applyPlanQ_noBlockingFailure env₁ cfg post hr hu]
    exact changeset_isolation env₁ env₂ cfg B pre post h
  · intro hnb
    show (applyChangesetsQ env₁ cfg (pre ++ B :: post) none).1 = _
    rw [applyChangesetsQ_append]
    simp only [applyChangesetsQ]
    rw [applyChangesetQ_eq env₁ cfg B _
        (fun e he => tqTransparent_of_nonBlocking env₁ _ e (hnb e he)),
      applyChangeset_congr env₁ env₂ cfg B h]
    simp [applyPlanQ, List.append_assoc]

theorem changeset_isolation_amended_witness :
    AgreesOn envC4a envC4b csC4B ∧
    (applyPlanQ envC4a cfgC4 ([csC4A] ++ csC4B :: [])).1.results
      = (applyPlanQ envC4a cfgC4 [csC4A]).1.results ++ (applyChangeset envC4b cfgC4 csC4B).1
        ++ (applyPlanQ envC4a cfgC4 []).1.results := by
  have hAgrees : AgreesOn envC4a envC4b csC4B := by
    intro e he
    simp [Changeset.allEndpoints, csC4B] at he
    subst he
    exact ⟨fun op => rfl, fun op => rfl, rfl, rfl, rfl, rfl, rfl, rfl⟩
  exact ⟨hAgrees,
    (changeset_isolation_amended envC4a envC4b cfgC4 csC4B [csC4A] [] hAgrees).1
      (fun e => rfl) (fun e => rfl)⟩

end Fabricator
